import Mathlib

set_option maxRecDepth 40000

/-!
Verification of the coapserver BR gateway, registry, topology aggregator and
CoAP codec. Python dicts are modelled as insertion-ordered association lists,
Python sets as duplicate-free lists in insertion order, wall-clock timestamps
as explicit integer parameters, and JSON-carried numbers as integers. Fields
that may be absent from a JSON event are `Option`s (a JSON `null` value is
not distinguished from an absent key; no modelled code path separates them).
-/

namespace CoapServer

/-- Model of a Python dict: insertion-ordered association list. -/
abbrev Dict (α β : Type) := List (α × β)

/-- Model of `d[key]` / `d.get(key)`: first binding wins (keys are unique in
an actual dict, so this matches dict lookup). -/
def dictLookup [DecidableEq α] : Dict α β → α → Option β
  | [], _ => none
  | (k, v) :: rest, key => if k = key then some v else dictLookup rest key

/-- Model of `d[key] = v`: replace the first binding in place (a dict update
keeps the key position), append when absent. -/
def dictInsert [DecidableEq α] : Dict α β → α → β → Dict α β
  | [], key, val => [(key, val)]
  | (k, v) :: rest, key, val =>
    if k = key then (k, val) :: rest else (k, v) :: dictInsert rest key val

/-- Model of `del d[key]` (guarded by `key in d` at call sites, so removing
nothing when absent is the same behaviour). -/
def dictErase [DecidableEq α] (d : Dict α β) (key : α) : Dict α β :=
  d.filter (fun kv => !(kv.1 == key))

/-- Number of bindings a dict holds for a key (1 or 0 in a real dict). -/
def dictCount [DecidableEq α] (d : Dict α β) (key : α) : Nat :=
  (d.filter (fun kv => kv.1 == key)).length

/-- Model of `s.add(x)` on a Python set. -/
def setInsert [DecidableEq α] (l : List α) (x : α) : List α :=
  if x ∈ l then l else l ++ [x]

@[simp] theorem dictLookup_insert [DecidableEq α] (d : Dict α β) (k : α) (v : β) :
    dictLookup (dictInsert d k v) k = some v := by
  induction d with
  | nil => simp [dictInsert, dictLookup]
  | cons kv rest ih =>
    by_cases h : kv.1 = k
    · simp [dictInsert, dictLookup, h]
    · simp [dictInsert, dictLookup, h, ih]

theorem dictLookup_insert_ne [DecidableEq α] (d : Dict α β) (k k' : α) (v : β)
    (h : k' ≠ k) : dictLookup (dictInsert d k v) k' = dictLookup d k' := by
  induction d with
  | nil =>
    simp only [dictInsert, dictLookup]
    rw [if_neg (Ne.symm h)]
  | cons kv rest ih =>
    obtain ⟨k1, v1⟩ := kv
    by_cases hk : k1 = k
    · have hne : k1 ≠ k' := by rw [hk]; exact Ne.symm h
      simp only [dictInsert, if_pos hk, dictLookup, if_neg hne]
    · simp only [dictInsert, if_neg hk, dictLookup]
      by_cases hk' : k1 = k'
      · rw [if_pos hk', if_pos hk']
      · rw [if_neg hk', if_neg hk', ih]

theorem dictLookup_erase_self [DecidableEq α] (d : Dict α β) (k : α) :
    dictLookup (dictErase d k) k = none := by
  induction d with
  | nil => simp [dictErase, dictLookup]
  | cons kv rest ih =>
    by_cases h : kv.1 = k
    · simpa [dictErase, h] using ih
    · simpa [dictErase, dictLookup, h] using ih

theorem dictLookup_none_of_erase_insert_ne [DecidableEq α]
    (d : Dict α β) (k k' : α) (v : β) (h : k ≠ k') :
    dictLookup (dictInsert (dictErase d k) k' v) k = none := by
  rw [dictLookup_insert_ne _ _ _ _ h, dictLookup_erase_self]

theorem dictCount_eq_zero_of_lookup_none [DecidableEq α] (d : Dict α β) (k : α)
    (h : dictLookup d k = none) : dictCount d k = 0 := by
  induction d with
  | nil => simp [dictCount]
  | cons kv rest ih =>
    obtain ⟨k1, v1⟩ := kv
    by_cases hk : k1 = k
    · simp [dictLookup, hk] at h
    · simp only [dictLookup, if_neg hk] at h
      simp only [dictCount, List.filter_cons, hk]
      simp only [beq_iff_eq, hk, if_false]
      exact ih h

theorem dictCount_insert_fresh [DecidableEq α] (d : Dict α β) (k : α) (v : β)
    (h : dictLookup d k = none) : dictCount (dictInsert d k v) k = 1 := by
  induction d with
  | nil => simp [dictCount, dictInsert]
  | cons kv rest ih =>
    obtain ⟨k1, v1⟩ := kv
    by_cases hk : k1 = k
    · simp [dictLookup, hk] at h
    · simp only [dictLookup, if_neg hk] at h
      simp only [dictInsert, if_neg hk, dictCount, List.filter_cons, beq_iff_eq, hk, if_false]
      exact ih h

theorem dictCount_insert_present [DecidableEq α] (d : Dict α β) (k : α) (v w : β)
    (h : dictLookup d k = some w) : dictCount (dictInsert d k v) k = dictCount d k := by
  induction d with
  | nil => simp [dictLookup] at h
  | cons kv rest ih =>
    obtain ⟨k1, v1⟩ := kv
    by_cases hk : k1 = k
    · simp [dictInsert, if_pos hk, dictCount, List.filter_cons, hk]
    · simp only [dictLookup, if_neg hk] at h
      simp only [dictInsert, if_neg hk, dictCount, List.filter_cons, beq_iff_eq, hk, if_false]
      exact ih h

@[simp] theorem mem_setInsert [DecidableEq α] (l : List α) (x y : α) :
    y ∈ setInsert l x ↔ y ∈ l ∨ y = x := by
  unfold setInsert
  by_cases h : x ∈ l
  · rw [if_pos h]
    exact ⟨Or.inl, fun hy => hy.elim id (fun he => he ▸ h)⟩
  · rw [if_neg h]
    simp

theorem subset_setInsert [DecidableEq α] (l : List α) (x : α) :
    l ⊆ setInsert l x := by
  intro y hy; simp [hy]

/-- Folding `set.add` over a list of elements. -/
def setInsertAll [DecidableEq α] (l : List α) (xs : List α) : List α :=
  xs.foldl setInsert l

@[simp] theorem mem_setInsertAll [DecidableEq α] (l xs : List α) (y : α) :
    y ∈ setInsertAll l xs ↔ y ∈ l ∨ y ∈ xs := by
  induction xs generalizing l with
  | nil => simp [setInsertAll]
  | cons x rest ih =>
    simp only [setInsertAll, List.foldl] at *
    rw [ih (setInsert l x)]
    simp [mem_setInsert, List.mem_cons, or_assoc]

theorem subset_setInsertAll [DecidableEq α] (l xs : List α) :
    l ⊆ setInsertAll l xs := by
  intro y hy; simp [hy]

/-! ### IPv6 address model

Model of `ipaddress.IPv6Address`: parsing of the hex-group grammar with at
most one `::` (the embedded-IPv4 text form is not used by any input in this
development) to a 128-bit value, and the canonical RFC 5952 serialization
that `str(ip)` produces (lowercase hextets without leading zeros, the
longest, leftmost run of two or more zero hextets compressed to `::`). -/

def hexVal? (c : Char) : Option Nat :=
  if '0' ≤ c ∧ c ≤ '9' then some (c.toNat - '0'.toNat)
  else if 'a' ≤ c ∧ c ≤ 'f' then some (c.toNat - 'a'.toNat + 10)
  else if 'A' ≤ c ∧ c ≤ 'F' then some (c.toNat - 'A'.toNat + 10)
  else none

/-- `"…".split("::")` on the character list: greedy left-to-right,
non-overlapping, like Python's `str.split` (`String.splitOn` itself does
not reduce inside the kernel, so the split is spelled out on `List Char`).
The second argument accumulates the current piece in reverse. -/
def splitDoubleColon : List Char → List Char → List (List Char)
  | [], acc => [acc.reverse]
  | ':' :: ':' :: rest, acc => acc.reverse :: splitDoubleColon rest []
  | c :: rest, acc => splitDoubleColon rest (c :: acc)

/-- `"…".split(":")` on the character list. -/
def splitColon : List Char → List Char → List (List Char)
  | [], acc => [acc.reverse]
  | ':' :: rest, acc => acc.reverse :: splitColon rest []
  | c :: rest, acc => splitColon rest (c :: acc)

/-- One hex group: one to four hex digits, case-insensitive. -/
def parseHextet? (cs : List Char) : Option Nat :=
  if cs.length < 1 ∨ 4 < cs.length then none
  else cs.foldl (fun acc c =>
    match acc, hexVal? c with
    | some a, some d => some (a * 16 + d)
    | _, _ => none) (some 0)

def parseGroups? (cs : List Char) : Option (List Nat) :=
  if cs = [] then some [] else (splitColon cs []).mapM parseHextet?

def groupsToNat (gs : List Nat) : Nat := gs.foldl (fun a g => a * 65536 + g) 0

def parseIPv6? (s : String) : Option Nat :=
  match splitDoubleColon s.data [] with
  | [whole] =>
    match parseGroups? whole with
    | some gs => if gs.length = 8 then some (groupsToNat gs) else none
    | none => none
  | [lft, rgt] =>
    match parseGroups? lft, parseGroups? rgt with
    | some gl, some gr =>
      if gl.length + gr.length ≤ 7 then
        some (groupsToNat (gl ++ List.replicate (8 - gl.length - gr.length) 0 ++ gr))
      else none
    | _, _ => none
  | _ => none

/-- Lowercase hex digits of a hextet, without leading zeros. -/
def hextetStr (n : Nat) : String := String.mk (Nat.toDigits 16 n)

def hextetsOf (v : Nat) : List Nat :=
  (List.range 8).map (fun i => (v >>> ((7 - i) * 16)) &&& 0xFFFF)

def zeroRunLen : List Nat → Nat
  | 0 :: rest => 1 + zeroRunLen rest
  | _ => 0

/-- Longest (leftmost on ties) run of at least two zero hextets. -/
def bestZeroRunAux : List Nat → Nat → Option (Nat × Nat) → Option (Nat × Nat)
  | [], _, best => best
  | h :: rest, i, best =>
    let len := zeroRunLen (h :: rest)
    let best' :=
      match best with
      | some (_, bl) => if bl < len then some (i, len) else best
      | none => if 1 < len then some (i, len) else none
    bestZeroRunAux rest (i + 1) best'

def serializeIPv6 (v : Nat) : String :=
  let hs := hextetsOf v
  match bestZeroRunAux hs 0 none with
  | none => String.intercalate ":" (hs.map hextetStr)
  | some (st, ln) =>
    String.intercalate ":" ((hs.take st).map hextetStr) ++ "::" ++
      String.intercalate ":" ((hs.drop (st + ln)).map hextetStr)

/-- Interface identifier: the low 64 bits of an address value. -/
def iidOf (v : Nat) : Nat := v &&& ((1 <<< 64) - 1)

/-- RLOC/ALOC IID pattern `00:00:00:ff:fe:00:xx:xx`: the top six IID bytes
equal `00 00 00 ff fe 00`. -/
def isRlocIid (v : Nat) : Bool := (iidOf v) >>> 16 == 0xfffe00

/-- Zero-padded four-digit lowercase hex, the `f-string` format `%04x`. -/
def hex4 (n : Nat) : String :=
  String.mk [Nat.digitChar ((n >>> 12) &&& 15), Nat.digitChar ((n >>> 8) &&& 15),
             Nat.digitChar ((n >>> 4) &&& 15), Nat.digitChar (n &&& 15)]

/-- A mesh-local prefix value plus length, `ipaddress.IPv6Network` of e.g.
`fd00::/8`. -/
structure MeshPfx where
  val : Nat
  len : Nat

/-- The aggregator default `mesh_local_prefix = "fd00::/8"`. -/
def defaultMeshPfx : MeshPfx := ⟨0xfd00 <<< 112, 8⟩

/-- Model of `ip in prefix_network`. -/
def inMeshPfx (pfx : MeshPfx) (v : Nat) : Bool :=
  v >>> (128 - pfx.len) == pfx.val >>> (128 - pfx.len)

/-! ### UTF-8

Byte-level model of `str.encode('utf-8')` and of the lossy
`bytes.decode('utf-8', errors='ignore')`, which drops undecodable byte
runs and keeps going. -/

def charUtf8 (c : Char) : List Nat :=
  let n := c.toNat
  if n < 0x80 then [n]
  else if n < 0x800 then [0xC0 + n / 64, 0x80 + n % 64]
  else if n < 0x10000 then [0xE0 + n / 4096, 0x80 + (n / 64) % 64, 0x80 + n % 64]
  else [0xF0 + n / 262144, 0x80 + (n / 4096) % 64, 0x80 + (n / 64) % 64, 0x80 + n % 64]

def strUtf8 (s : String) : List Nat := (s.data.map charUtf8).flatten

def isUtf8Cont (b : Nat) : Bool := decide (0x80 ≤ b) && decide (b < 0xC0)

/-- First continuation byte of a three-byte sequence: guards against
overlong encodings (lead `0xE0`) and surrogates (lead `0xED`). -/
def isCont3 (b c : Nat) : Bool :=
  isUtf8Cont c && (if b = 0xE0 then decide (0xA0 ≤ c)
                   else if b = 0xED then decide (c < 0xA0) else true)

/-- First continuation byte of a four-byte sequence: guards against
overlong encodings (lead `0xF0`) and values above `0x10FFFF` (lead
`0xF4`). -/
def isCont4 (b c : Nat) : Bool :=
  isUtf8Cont c && (if b = 0xF0 then decide (0x90 ≤ c)
                   else if b = 0xF4 then decide (c < 0x90) else true)

def utf8DecodeIgnore : List Nat → List Char
  | [] => []
  | b :: rest =>
    if b < 0x80 then Char.ofNat b :: utf8DecodeIgnore rest
    else if b < 0xC2 then utf8DecodeIgnore rest
    else if b < 0xE0 then
      match rest with
      | c1 :: r1 =>
        if isUtf8Cont c1
        then Char.ofNat ((b - 0xC0) * 64 + (c1 - 0x80)) :: utf8DecodeIgnore r1
        else utf8DecodeIgnore (c1 :: r1)
      | [] => []
    else if b < 0xF0 then
      match rest with
      | c1 :: r1 =>
        if isCont3 b c1 then
          match r1 with
          | c2 :: r2 =>
            if isUtf8Cont c2
            then Char.ofNat (((b - 0xE0) * 64 + (c1 - 0x80)) * 64 + (c2 - 0x80)) ::
                   utf8DecodeIgnore r2
            else utf8DecodeIgnore (c2 :: r2)
          | [] => []
        else utf8DecodeIgnore (c1 :: r1)
      | [] => []
    else if b < 0xF5 then
      match rest with
      | c1 :: r1 =>
        if isCont4 b c1 then
          match r1 with
          | c2 :: r2 =>
            if isUtf8Cont c2 then
              match r2 with
              | c3 :: r3 =>
                if isUtf8Cont c3
                then Char.ofNat ((((b - 0xF0) * 64 + (c1 - 0x80)) * 64 + (c2 - 0x80)) * 64
                       + (c3 - 0x80)) :: utf8DecodeIgnore r3
                else utf8DecodeIgnore (c3 :: r3)
              | [] => []
            else utf8DecodeIgnore (c2 :: r2)
          | [] => []
        else utf8DecodeIgnore (c1 :: r1)
      | [] => []
    else utf8DecodeIgnore rest

/-! ### CoAP codec (`lib/coap/protocol.py`) -/

namespace Coap

/-- Result of the option-parsing loop inside `parse_coap_packet`: a normal
exit carrying the Uri-Path segments and payload, or an uncaught Python
exception (IndexError / struct.error raised while reading the extended
delta or length bytes past the end of the buffer). -/
inductive WalkResult where
  | ok (uri : List String) (payload : List Nat)
  | exn
  deriving DecidableEq, Repr

/-- Extended option delta/length decoding: nibble 13 adds one extra byte to
13, nibble 14 adds two big-endian extra bytes to 269, other nibbles stand
for themselves. `none` models the Python IndexError / struct.error when the
extra bytes lie past the end of the buffer. -/
def readExtended (nib : Nat) (l : List Nat) : Option (Nat × List Nat) :=
  if nib = 13 then
    match l with
    | x :: r => some (13 + x, r)
    | [] => none
  else if nib = 14 then
    match l with
    | x :: y :: r => some (269 + (x * 256 + y), r)
    | _ => none
  else some (nib, l)

theorem readExtended_length_le {nib : Nat} {l r : List Nat} {d : Nat}
    (h : readExtended nib l = some (d, r)) : r.length ≤ l.length := by
  unfold readExtended at h
  by_cases h13 : nib = 13
  · simp only [if_pos h13] at h
    match l, h with
    | x :: rr, h =>
      simp only [Option.some.injEq, Prod.mk.injEq] at h
      rw [← h.2]
      simp only [List.length_cons]
      omega
  · by_cases h14 : nib = 14
    · simp only [if_neg h13, if_pos h14] at h
      match l, h with
      | x :: y :: rr, h =>
        simp only [Option.some.injEq, Prod.mk.injEq] at h
        rw [← h.2]
        simp only [List.length_cons]
        omega
    · simp only [if_neg h13, if_neg h14, Option.some.injEq, Prod.mk.injEq] at h
      rw [← h.2]

/-- The `while offset < len(data)` option loop of `parse_coap_packet`,
walking the suffix `data[offset:]`. On the payload marker `0xFF` the rest
of the buffer becomes the payload; when an option value would overrun the
buffer the loop `break`s, returning the segments gathered so far with an
empty payload; Uri-Path segments are collected only when the accumulated
option number equals 11. The first argument is structural fuel: every loop
pass consumes at least the option header byte, so starting the fuel at
`data.length + 1` (see `optionWalk`) the zero-fuel branch is unreachable. -/
def optionWalkF : Nat → List Nat → Nat → List String → WalkResult
  | 0, _, _, _ => .exn
  | fuel + 1, data, optionNumber, uri =>
    match data with
    | [] => .ok uri []
    | b :: rest =>
      if b = 0xFF then .ok uri rest
      else
        match readExtended ((b >>> 4) &&& 0xF) rest with
        | none => .exn
        | some (delta, r1) =>
          match readExtended (b &&& 0xF) r1 with
          | none => .exn
          | some (len, r2) =>
            let optionNumber' := optionNumber + delta
            if len ≤ r2.length then
              let uri' := if optionNumber' = 11
                then uri ++ [String.mk (utf8DecodeIgnore (r2.take len))]
                else uri
              optionWalkF fuel (r2.drop len) optionNumber' uri'
            else .ok uri []

def optionWalk (data : List Nat) (optionNumber : Nat) (uri : List String) :
    WalkResult :=
  optionWalkF (data.length + 1) data optionNumber uri

structure CoapPacket where
  version : Nat
  msgType : Nat
  code : String
  message_id : Nat
  uri_path : String
  payload : List Nat
  token_length : Nat
  deriving DecidableEq, Repr

/-- Outcome of `parse_coap_packet`: the returned dict, the `None` return for
short inputs, or an uncaught exception escaping the function. -/
inductive ParseResult where
  | packet (p : CoapPacket)
  | noneResult
  | exn
  deriving DecidableEq, Repr

def ParseResult.uriPathOf : ParseResult → Option String
  | .packet p => some p.uri_path
  | _ => none

def ParseResult.payloadOf : ParseResult → Option (List Nat)
  | .packet p => some p.payload
  | _ => none

/-- The f-string `f"{code_class}.{code_detail:02d}"`. -/
def codeStr (c : Nat) : String :=
  let detail := c &&& 0x1F
  toString (c >>> 5) ++ "." ++ (if detail < 10 then "0" else "") ++ toString detail

def parse_coap_packet (data : List Nat) : ParseResult :=
  match data with
  | b0 :: b1 :: b2 :: b3 :: rest =>
    let version := (b0 >>> 6) &&& 0x03
    let msgType := (b0 >>> 4) &&& 0x03
    let tokenLength := b0 &&& 0x0F
    let messageId := b2 * 256 + b3
    match optionWalk (rest.drop tokenLength) 0 [] with
    | .ok uri payload =>
      .packet ⟨version, msgType, codeStr b1, messageId,
        String.intercalate "/" uri, payload, tokenLength⟩
    | .exn => .exn
  | _ => .noneResult

/-- `create_coap_post_packet`. The Python message id `int(time.time()) %
0xFFFF` is modelled by the parameter `t` (the wall-clock seconds). -/
def create_coap_post_packet (uri_path payload : String) (t : Nat) : List Nat :=
  let message_id := t % 0xFFFF
  let header := [0x50, 0x02, message_id / 256, message_id % 256]
  let uriBytes := strUtf8 uri_path
  let optionHeader := [0xB0 + uriBytes.length]
  header ++ optionHeader ++ uriBytes ++ [0xFF] ++ strUtf8 payload

/-- Test-vector constructor for stating parser properties: the RFC 7252
encoding of a single option header with delta `n` (direct nibble below 13,
13-plus-one-byte, or 14-plus-two-bytes form) followed by a value of fewer
than 13 bytes. -/
def mkOptionBytes (n : Nat) (v : List Nat) : List Nat :=
  if n < 13 then (n * 16 + v.length) :: v
  else if n < 269 then (13 * 16 + v.length) :: (n - 13) :: v
  else (14 * 16 + v.length) :: ((n - 269) / 256) :: ((n - 269) % 256) :: v

theorem nibble_high (n len : Nat) (hn : n < 16) (hl : len < 16) :
    ((n * 16 + len) >>> 4) &&& 0xF = n := by
  rw [Nat.shiftRight_eq_div_pow]
  have hdiv : (n * 16 + len) / 2 ^ 4 = n := by omega
  rw [hdiv, show (0xF : Nat) = 2 ^ 4 - 1 from rfl, Nat.and_pow_two_sub_one_eq_mod]
  omega

theorem nibble_low (n len : Nat) (hl : len < 16) : (n * 16 + len) &&& 0xF = len := by
  rw [show (0xF : Nat) = 2 ^ 4 - 1 from rfl, Nat.and_pow_two_sub_one_eq_mod]
  omega

theorem readExtended_plain {n : Nat} (l : List Nat) (h13 : n ≠ 13) (h14 : n ≠ 14) :
    readExtended n l = some (n, l) := by
  unfold readExtended
  rw [if_neg h13, if_neg h14]

theorem readExtended_thirteen (x : Nat) (r : List Nat) :
    readExtended 13 (x :: r) = some (13 + x, r) := rfl

theorem readExtended_fourteen (x y : Nat) (r : List Nat) :
    readExtended 14 (x :: y :: r) = some (269 + (x * 256 + y), r) := rfl

theorem optionWalk_mkOption (n : Nat) (v : List Nat) (hn : 0 < n) (hmax : n ≤ 65804)
    (hl : v.length < 13) :
    optionWalk (mkOptionBytes n v) 0 [] =
      .ok (if n = 11 then [String.mk (utf8DecodeIgnore v)] else []) [] := by
  by_cases h13 : n < 13
  · have hhdr : mkOptionBytes n v = (n * 16 + v.length) :: v := by
      simp [mkOptionBytes, h13]
    rw [optionWalk, hhdr]
    simp only [List.length_cons]
    unfold optionWalkF
    dsimp only
    rw [if_neg (by omega : ¬ (n * 16 + v.length = 0xFF))]
    rw [nibble_high n v.length (by omega) (by omega), nibble_low n v.length (by omega)]
    rw [readExtended_plain v (by omega) (by omega)]
    dsimp only
    rw [readExtended_plain v (by omega) (by omega)]
    dsimp only
    rw [if_pos (le_refl v.length)]
    simp only [List.take_length, List.drop_length, Nat.zero_add, List.nil_append]
    unfold optionWalkF
    rfl
  · by_cases h269 : n < 269
    · have hhdr : mkOptionBytes n v = (13 * 16 + v.length) :: (n - 13) :: v := by
        simp [mkOptionBytes, h13, h269]
      rw [optionWalk, hhdr]
      simp only [List.length_cons]
      unfold optionWalkF
      dsimp only
      rw [if_neg (by omega : ¬ (13 * 16 + v.length = 0xFF))]
      rw [nibble_high 13 v.length (by omega) (by omega), nibble_low 13 v.length (by omega)]
      rw [readExtended_thirteen, show 13 + (n - 13) = n by omega]
      dsimp only
      rw [readExtended_plain v (by omega) (by omega)]
      dsimp only
      rw [if_pos (le_refl v.length)]
      simp only [List.take_length, List.drop_length, Nat.zero_add, List.nil_append]
      unfold optionWalkF
      rfl
    · have hhdr : mkOptionBytes n v =
          (14 * 16 + v.length) :: ((n - 269) / 256) :: ((n - 269) % 256) :: v := by
        simp [mkOptionBytes, h13, h269]
      rw [optionWalk, hhdr]
      simp only [List.length_cons]
      unfold optionWalkF
      dsimp only
      rw [if_neg (by omega : ¬ (14 * 16 + v.length = 0xFF))]
      rw [nibble_high 14 v.length (by omega) (by omega), nibble_low 14 v.length (by omega)]
      rw [readExtended_fourteen,
        show 269 + ((n - 269) / 256 * 256 + (n - 269) % 256) = n by omega]
      dsimp only
      rw [readExtended_plain v (by omega) (by omega)]
      dsimp only
      rw [if_pos (le_refl v.length)]
      simp only [List.take_length, List.drop_length, Nat.zero_add, List.nil_append]
      unfold optionWalkF
      rfl

theorem parse_noneResult_iff (data : List Nat) :
    parse_coap_packet data = .noneResult ↔ data.length < 4 := by
  match data with
  | [] => simp [parse_coap_packet]
  | [_] => simp [parse_coap_packet]
  | [_, _] => simp [parse_coap_packet]
  | [_, _, _] => simp [parse_coap_packet]
  | b0 :: b1 :: b2 :: b3 :: rest =>
    simp only [parse_coap_packet]
    constructor
    · intro h
      cases hw : optionWalk (rest.drop (b0 &&& 0x0F)) 0 [] <;> simp [hw] at h
    · intro h
      exfalso
      simp only [List.length_cons] at h
      omega

theorem parse_single_option (n : Nat) (v : List Nat) (hn : 0 < n) (hmax : n ≤ 65804)
    (hl : v.length < 13) :
    parse_coap_packet ([0x40, 0x01, 0x00, 0x00] ++ mkOptionBytes n v) =
      .packet ⟨1, 0, "0.01", 0,
        (if n = 11 then String.mk (utf8DecodeIgnore v) else ""), [], 0⟩ := by
  have hwalk := optionWalk_mkOption n v hn hmax hl
  simp only [List.cons_append, List.nil_append, parse_coap_packet]
  rw [show (0x40 &&& 0x0F : Nat) = 0 from rfl, List.drop_zero, hwalk]
  by_cases hcase : n = 11
  · simp only [hcase, if_pos]
    rfl
  · rw [if_neg hcase, if_neg hcase]
    rfl

/-- Round-trip property for one (uri_path, payload) pair: for every wall
clock second count `t`, decoding the encoder output yields the same
uri_path string and exactly the UTF-8 bytes of the payload that were
encoded. -/
def postRoundtripOk (u p : String) : Prop :=
  ∀ t : Nat,
    (parse_coap_packet (create_coap_post_packet u p t)).uriPathOf = some u ∧
    (parse_coap_packet (create_coap_post_packet u p t)).payloadOf = some (strUtf8 p)

/-- A 512-byte payload blob. -/
def blob512 : String := String.mk (List.replicate 512 'a')

/-- C6: for every uri_path in {"audio", "led", "network-info"} and every
payload in {"", "x", 512-byte blob}, decoding the bytes produced by the
POST encoder yields the same uri_path and the same payload bytes as were
encoded. -/
theorem c6_coap_post_roundtrip :
    (postRoundtripOk "audio" "" ∧ postRoundtripOk "audio" "x" ∧
      postRoundtripOk "audio" blob512) ∧
    (postRoundtripOk "led" "" ∧ postRoundtripOk "led" "x" ∧
      postRoundtripOk "led" blob512) ∧
    (postRoundtripOk "network-info" "" ∧ postRoundtripOk "network-info" "x" ∧
      postRoundtripOk "network-info" blob512) :=
  ⟨⟨fun _ => ⟨rfl, rfl⟩, fun _ => ⟨rfl, rfl⟩, fun _ => ⟨rfl, rfl⟩⟩,
   ⟨fun _ => ⟨rfl, rfl⟩, fun _ => ⟨rfl, rfl⟩, fun _ => ⟨rfl, rfl⟩⟩,
   ⟨fun _ => ⟨rfl, rfl⟩, fun _ => ⟨rfl, rfl⟩, fun _ => ⟨rfl, rfl⟩⟩⟩

/-- C7 counterexample: the claim says the decoder returns a decode-error
result exactly when the input is shorter than 4 bytes or the option walk
overruns the buffer. On `[40 01 00 00 15]` the single option announces a
5-byte value with 0 bytes remaining - the walk overruns - yet the decoder
returns a successful partial parse, not an error; and on `[40 01 00 00 D1]`
the extended-delta byte lies past the end and the decoder raises an
uncaught exception rather than returning a decode-error result. -/
theorem c7_decode_error_counterexample :
    parse_coap_packet [0x40, 0x01, 0x00, 0x00, 0x15] =
      .packet ⟨1, 0, "0.01", 0, "", [], 0⟩ ∧
    parse_coap_packet [0x40, 0x01, 0x00, 0x00, 0xD1] = .exn :=
  ⟨rfl, rfl⟩

/-- C7 amended: the decoder returns its decode-error result (`None`)
exactly when the input is shorter than 4 bytes. When the option walk
overruns the buffer it instead either raises an uncaught exception (while
reading extended delta/length bytes) or stops and returns a partial parse
(when the announced option value does not fit). Uri-Path segments are
appended only when the accumulated option number equals 11, and the
extended delta/length forms 13 and 14 are honored: a single option encoded
with any delta form carries its value into uri_path exactly when the
option number is 11, and extended length forms 13 and 14 are decoded
accordingly. -/
theorem c7_decode_error_amended :
    (∀ data, parse_coap_packet data = .noneResult ↔ data.length < 4) ∧
    (∀ n v, 0 < n → n ≤ 65804 → v.length < 13 →
      parse_coap_packet ([0x40, 0x01, 0x00, 0x00] ++ mkOptionBytes n v) =
        .packet ⟨1, 0, "0.01", 0,
          (if n = 11 then String.mk (utf8DecodeIgnore v) else ""), [], 0⟩) ∧
    parse_coap_packet ([0x40, 0x01, 0x00, 0x00, 0xBD, 0x00] ++ List.replicate 13 97) =
      .packet ⟨1, 0, "0.01", 0, String.mk (List.replicate 13 'a'), [], 0⟩ ∧
    parse_coap_packet ([0x40, 0x01, 0x00, 0x00, 0xBE, 0x00, 0x00] ++ List.replicate 269 97) =
      .packet ⟨1, 0, "0.01", 0, String.mk (List.replicate 269 'a'), [], 0⟩ :=
  ⟨parse_noneResult_iff, parse_single_option, rfl, rfl⟩

/-- Witness for the amended C7 theorem at concrete inputs: a 3-byte input
is reported as a decode error, a Uri-Path option (11) with value "a"
appears in uri_path, and an option with number 21 does not. -/
theorem c7_decode_error_witness :
    parse_coap_packet [0x40, 0x01, 0x00] = .noneResult ∧
    parse_coap_packet ([0x40, 0x01, 0x00, 0x00] ++ mkOptionBytes 11 [97]) =
      .packet ⟨1, 0, "0.01", 0, "a", [], 0⟩ ∧
    parse_coap_packet ([0x40, 0x01, 0x00, 0x00] ++ mkOptionBytes 21 [97]) =
      .packet ⟨1, 0, "0.01", 0, "", [], 0⟩ := by
  refine ⟨(c7_decode_error_amended.1 [0x40, 0x01, 0x00]).mpr (by decide), ?_, ?_⟩
  · exact c7_decode_error_amended.2.1 11 [97] (by decide) (by decide) (by decide)
  · exact c7_decode_error_amended.2.1 21 [97] (by decide) (by decide) (by decide)

end Coap

/-- Model of `str.lower()` (per-character lowering). -/
def pyLower (s : String) : String := String.mk (s.data.map Char.toLower)

theorem pyLower_eq_empty_iff (s : String) : pyLower s = "" ↔ s = "" := by
  obtain ⟨l⟩ := s
  simp only [pyLower]
  constructor
  · intro h
    have hmap : l.map Char.toLower = [] := by
      have := congrArg String.data h
      simpa using this
    have hl : l = [] := List.map_eq_nil_iff.mp hmap
    rw [hl]
  · intro h
    obtain rfl : l = [] := by
      have := congrArg String.data h
      simpa using this
    rfl

/-! ### Topology aggregator (`lib/network_topology_aggregator.py`) -/

namespace NetworkTopologyAggregator

/-- Model of `self.is_rloc`: parse the address and test the RLOC/ALOC IID
pattern; the Python exception branch returns `False`. -/
def is_rloc (addr : String) : Bool :=
  match parseIPv6? addr with
  | some v => isRlocIid v
  | none => false

/-- Model of `extract_mleids`: keep the canonical lowercase form of every
address that parses, lies in the mesh-local prefix and is not a RLOC/ALOC.
The Python calls `self.is_rloc(str(ip))`; re-parsing the canonical form
yields the same 128-bit value, so the test is on the value directly.
Unparseable entries are skipped (the per-entry `except` branch). -/
def extract_mleids (pfx : MeshPfx) (ip_list : List String) : List String :=
  ip_list.foldl (fun acc s =>
    match parseIPv6? s with
    | some v =>
      if inMeshPfx pfx v && !(isRlocIid v) then acc ++ [pyLower (serializeIPv6 v)]
      else acc
    | none => acc) []

/-- A diagnostic node event as `upsert_node` reads it. A field that is
absent, JSON-null, or (for the guards below) empty behaves identically, so
`none`/`some ""` both model Python falsiness where relevant. -/
structure NodeEvent where
  partition : Option Nat
  ext_addr : Option String
  rloc16 : Option String
  role : Option String
  is_br : Bool
  mleids : Option (List String)
  ipv6_list : Option (List String)
  deriving DecidableEq, Repr

/-- The per-node record of `self.nodes` (Python sets as dup-free lists). -/
structure NodeRec where
  ext_addr : String
  partition_id : Nat
  rloc16s : List String
  mleids : List String
  roles : List String
  br_ids : List String
  is_br : Bool
  last_seen : Int
  deriving DecidableEq, Repr

structure RouterLinkEvent where
  a_rloc16 : Option String
  b_rloc16 : Option String
  avg_rssi : Option Int
  last_rssi : Option Int
  lqi : Option Int
  margin_db : Option Int
  frame_err : Option Int
  msg_err : Option Int
  deriving DecidableEq, Repr

structure LinkRec where
  avg_rssi : Option Int
  last_rssi : Option Int
  lqi : Option Int
  margin_db : Option Int
  frame_err : Option Int
  msg_err : Option Int
  last_seen : Int
  deriving DecidableEq, Repr

structure ChildLinkEvent where
  parent_rloc16 : Option String
  child_rloc16 : Option String
  child_mleids : Option (List String)
  child_ext_addr : Option String
  partition : Option Nat
  avg_rssi : Option Int
  last_rssi : Option Int
  lqi : Option Int
  mode : Option String
  version : Option Int
  deriving DecidableEq, Repr

structure ChildRec where
  avg_rssi : Option Int
  last_rssi : Option Int
  lqi : Option Int
  mode : Option String
  version : Option Int
  last_seen : Int
  deriving DecidableEq, Repr

/-- The three tables of the aggregator. -/
structure AggState where
  nodes : Dict (Nat × String) NodeRec
  router_links : Dict (String × String) LinkRec
  child_links : Dict (String × String) ChildRec
  deriving DecidableEq, Repr

/-- The fresh record `upsert_node` initializes for an unseen key. -/
def freshNode (p : Nat) (ea : String) : NodeRec :=
  ⟨ea, p, [], [], [], [], false, 0⟩

/-- The merge body of `upsert_node` once the record exists: the Python
mutates the record field by field; each field is touched at most once, so
the sequence is expressed as a single record update. -/
def applyNodeEvent (pfx : MeshPfx) (node : NodeRec) (e : NodeEvent)
    (br_id : String) (now : Int) : NodeRec :=
  { node with
    rloc16s := match e.rloc16 with
      | some r => if r = "" then node.rloc16s else setInsert node.rloc16s (pyLower r)
      | none => node.rloc16s,
    roles := match e.role with
      | some r => if r = "" then node.roles else setInsert node.roles (pyLower r)
      | none => node.roles,
    is_br := node.is_br || e.is_br,
    mleids := match e.mleids with
      | some (m :: ms) => setInsertAll node.mleids ((m :: ms).map pyLower)
      | _ => match e.ipv6_list with
        | some (i :: il) => setInsertAll node.mleids (extract_mleids pfx (i :: il))
        | _ => node.mleids,
    br_ids := setInsert node.br_ids br_id,
    last_seen := now }

/-- `upsert_node(event, br_id)`: events whose partition is falsy (absent or
0) or whose ext_addr lowers to the empty string are rejected without any
state change; otherwise the record at `(partition, ext_addr)` is created if
needed and merged. -/
def upsert_node (pfx : MeshPfx) (σ : AggState) (e : NodeEvent) (br_id : String)
    (now : Int) : AggState :=
  let ext_addr := pyLower (e.ext_addr.getD "")
  match e.partition with
  | none => σ
  | some p =>
    if p = 0 ∨ ext_addr = "" then σ
    else
      let key := (p, ext_addr)
      let node0 := (dictLookup σ.nodes key).getD (freshNode p ext_addr)
      { σ with nodes := dictInsert σ.nodes key (applyNodeEvent pfx node0 e br_id now) }

/-- The dict literal stored by `upsert_router_link`: every metric comes from
the current event (`event.get(...)`), absent ones as null. -/
def linkRecOf (e : RouterLinkEvent) (now : Int) : LinkRec :=
  ⟨e.avg_rssi, e.last_rssi, e.lqi, e.margin_db, e.frame_err, e.msg_err, now⟩

/-- Lexicographic code-point comparison of strings, the ordering Python's
`sorted` uses (Lean's `String.decidableLE` instance does not reduce inside
the kernel, so the comparison is spelled out). -/
def strLeList : List Char → List Char → Bool
  | [], _ => true
  | _ :: _, [] => false
  | x :: xs, y :: ys =>
    if x.toNat < y.toNat then true
    else if y.toNat < x.toNat then false
    else strLeList xs ys

def strLe (a b : String) : Bool := strLeList a.data b.data

/-- `tuple(sorted([a, b]))`. -/
def sortPair (a b : String) : String × String :=
  if strLe a b then (a, b) else (b, a)

def upsert_router_link (σ : AggState) (e : RouterLinkEvent) (now : Int) : AggState :=
  let a := pyLower (e.a_rloc16.getD "")
  let b := pyLower (e.b_rloc16.getD "")
  if a = "" ∨ b = "" then σ
  else { σ with router_links := dictInsert σ.router_links (sortPair a b) (linkRecOf e now) }

/-- The dict literal stored by `upsert_child_link`. -/
def childRecOf (e : ChildLinkEvent) (now : Int) : ChildRec :=
  ⟨e.avg_rssi, e.last_rssi, e.lqi, e.mode, e.version, now⟩

/-- `upsert_child_link(event, br_id)`: stores the child link, then, when the
event carries both `child_ext_addr` and `partition` keys, also upserts the
child as a node. -/
def upsert_child_link (pfx : MeshPfx) (σ : AggState) (e : ChildLinkEvent)
    (br_id : String) (now : Int) : AggState :=
  let parent := pyLower (e.parent_rloc16.getD "")
  let child := pyLower (e.child_rloc16.getD "")
  if parent = "" ∨ child = "" then σ
  else
    let σ1 := { σ with child_links := dictInsert σ.child_links (parent, child) (childRecOf e now) }
    if e.child_ext_addr.isSome ∧ e.partition.isSome then
      upsert_node pfx σ1
        ⟨e.partition, e.child_ext_addr, some child, some "child", false,
          some (e.child_mleids.getD []), none⟩ br_id now
    else σ1

/-- One entry of the `nodes` list of `get_topology` (sets listed). -/
structure TopoNodeOut where
  partition_id : Nat
  ext_addr : String
  rloc16s : List String
  mleids : List String
  roles : List String
  br_ids : List String
  is_br : Bool
  last_seen : Int
  deriving DecidableEq, Repr

structure RouterLinkOut where
  a_rloc16 : String
  b_rloc16 : String
  link : LinkRec
  deriving DecidableEq, Repr

structure ChildLinkOut where
  parent_rloc16 : String
  child_rloc16 : String
  link : ChildRec
  deriving DecidableEq, Repr

structure TopoStats where
  total_nodes : Nat
  total_router_links : Nat
  total_child_links : Nat
  timestamp : Int
  deriving DecidableEq, Repr

structure Topology where
  nodes : List TopoNodeOut
  router_links : List RouterLinkOut
  child_links : List ChildLinkOut
  stats : TopoStats
  deriving DecidableEq, Repr

def topoNodeOut (kv : (Nat × String) × NodeRec) : TopoNodeOut :=
  ⟨kv.1.1, kv.1.2, kv.2.rloc16s, kv.2.mleids, kv.2.roles, kv.2.br_ids,
    kv.2.is_br, kv.2.last_seen⟩

/-- `get_topology()`: JSON-serializable snapshot of the three tables plus
counts and a generation timestamp. -/
def get_topology (σ : AggState) (now : Int) : Topology :=
  ⟨σ.nodes.map topoNodeOut,
   σ.router_links.map (fun kv => ⟨kv.1.1, kv.1.2, kv.2⟩),
   σ.child_links.map (fun kv => ⟨kv.1.1, kv.1.2, kv.2⟩),
   ⟨σ.nodes.length, σ.router_links.length, σ.child_links.length, now⟩⟩

/-- `clear()`. -/
def clear (_ : AggState) : AggState := ⟨[], [], []⟩

/-- The deduplication key `upsert_node` derives from an event, `none` when
the event is rejected (falsy partition or empty ext_addr). -/
def eventKeyOf (e : NodeEvent) : Option (Nat × String) :=
  match e.partition with
  | none => none
  | some p =>
    if p = 0 ∨ pyLower (e.ext_addr.getD "") = "" then none
    else some (p, pyLower (e.ext_addr.getD ""))

/-- The state `upsert_node` produces when the event carries key `k`. -/
def upsertAt (pfx : MeshPfx) (σ : AggState) (k : Nat × String) (e : NodeEvent)
    (br : String) (now : Int) : AggState :=
  { σ with nodes := dictInsert σ.nodes k (applyNodeEvent pfx ((dictLookup σ.nodes k).getD (freshNode k.1 k.2)) e br now) }

theorem upsert_node_eq_of_key (pfx : MeshPfx) (σ : AggState) (e : NodeEvent)
    (br : String) (now : Int) (k : Nat × String) (h : eventKeyOf e = some k) :
    upsert_node pfx σ e br now = upsertAt pfx σ k e br now := by
  unfold upsertAt
  unfold eventKeyOf at h
  unfold upsert_node
  cases hp : e.partition with
  | none => rw [hp] at h; simp at h
  | some p =>
    rw [hp] at h
    dsimp only at h ⊢
    by_cases hc : p = 0 ∨ pyLower (e.ext_addr.getD "") = ""
    · rw [if_pos hc] at h; simp at h
    · rw [if_neg hc] at h
      rw [if_neg hc]
      obtain rfl : (p, pyLower (e.ext_addr.getD "")) = k := by simpa using h
      rfl

theorem upsert_node_reject (pfx : MeshPfx) (σ : AggState) (e : NodeEvent)
    (br : String) (now : Int) (h : eventKeyOf e = none) :
    upsert_node pfx σ e br now = σ := by
  unfold eventKeyOf at h
  unfold upsert_node
  cases hp : e.partition with
  | none => rfl
  | some p =>
    rw [hp] at h
    dsimp only at h ⊢
    by_cases hc : p = 0 ∨ pyLower (e.ext_addr.getD "") = ""
    · rw [if_pos hc]
    · rw [if_neg hc] at h; simp at h

/-- `rloc16` values an event contributes to the record's `rloc16s` set. -/
def rlocObs (e : NodeEvent) : List String :=
  match e.rloc16 with
  | some r => if r = "" then [] else [pyLower r]
  | none => []

/-- ML-EID values an event contributes to the record's `mleids` set:
the pre-extracted `mleids` list when present and nonempty, else the
extraction from `ipv6_list` when present and nonempty, else nothing. -/
def mleidObs (pfx : MeshPfx) (e : NodeEvent) : List String :=
  match e.mleids with
  | some (m :: ms) => (m :: ms).map pyLower
  | _ => match e.ipv6_list with
    | some (i :: il) => extract_mleids pfx (i :: il)
    | _ => []

theorem applyNodeEvent_mem_rloc16s (pfx : MeshPfx) (node : NodeRec) (e : NodeEvent)
    (br : String) (now : Int) (x : String) :
    x ∈ (applyNodeEvent pfx node e br now).rloc16s ↔
      x ∈ node.rloc16s ∨ x ∈ rlocObs e := by
  unfold applyNodeEvent rlocObs
  cases e.rloc16 with
  | none => simp
  | some r =>
    by_cases hr : r = ""
    · simp [hr]
    · simp [hr, mem_setInsert]

theorem applyNodeEvent_mem_mleids (pfx : MeshPfx) (node : NodeRec) (e : NodeEvent)
    (br : String) (now : Int) (x : String) :
    x ∈ (applyNodeEvent pfx node e br now).mleids ↔
      x ∈ node.mleids ∨ x ∈ mleidObs pfx e := by
  unfold applyNodeEvent mleidObs
  cases hm : e.mleids with
  | some l =>
    cases l with
    | nil =>
      cases hil : e.ipv6_list with
      | some il =>
        cases il with
        | nil => simp
        | cons i irest => simp [mem_setInsertAll]
      | none => simp
    | cons m ms => simp [mem_setInsertAll]
  | none =>
    cases hil : e.ipv6_list with
    | some il =>
      cases il with
      | nil => simp
      | cons i irest => simp [mem_setInsertAll]
    | none => simp

theorem applyNodeEvent_mem_br_ids (pfx : MeshPfx) (node : NodeRec) (e : NodeEvent)
    (br : String) (now : Int) (x : String) :
    x ∈ (applyNodeEvent pfx node e br now).br_ids ↔
      x ∈ node.br_ids ∨ x = br := by
  unfold applyNodeEvent
  simp [mem_setInsert]

/-- A sequence of `upsert_node` calls: event, reporting BR, wall time. -/
def runUpserts (pfx : MeshPfx) (σ : AggState) (evs : List (NodeEvent × String × Int)) :
    AggState :=
  evs.foldl (fun s ebt => upsert_node pfx s ebt.1 ebt.2.1 ebt.2.2) σ

theorem filter_eq_singleton_of_count_one [DecidableEq α] (d : Dict α β) (k : α) (r : β)
    (hc : dictCount d k = 1) (hl : dictLookup d k = some r) :
    d.filter (fun kv => kv.1 == k) = [(k, r)] := by
  induction d with
  | nil => simp [dictLookup] at hl
  | cons kv rest ih =>
    obtain ⟨k1, v1⟩ := kv
    by_cases hk : k1 = k
    · subst hk
      simp [dictLookup] at hl
      subst hl
      simp only [dictCount, List.filter_cons, beq_self_eq_true, if_pos, List.length_cons] at hc
      have hzero : (List.filter (fun kv => kv.1 == k1) rest).length = 0 := by omega
      have hnil : List.filter (fun kv => kv.1 == k1) rest = [] :=
        List.length_eq_zero.mp hzero
      simp [List.filter_cons, hnil]
    · simp only [dictLookup, if_neg hk] at hl
      simp only [dictCount, List.filter_cons, beq_iff_eq, hk, if_false] at hc
      simp only [List.filter_cons, beq_iff_eq, hk, if_false]
      exact ih hc hl

theorem runUpserts_present (pfx : MeshPfx) (k : Nat × String) :
    ∀ (evs : List (NodeEvent × String × Int)) (σ : AggState) (r : NodeRec),
      (∀ ebt ∈ evs, eventKeyOf ebt.1 = some k) →
      dictLookup σ.nodes k = some r →
      ∃ r', dictLookup (runUpserts pfx σ evs).nodes k = some r' ∧
        dictCount (runUpserts pfx σ evs).nodes k = dictCount σ.nodes k ∧
        (∀ x, x ∈ r'.rloc16s ↔
          x ∈ r.rloc16s ∨ x ∈ (evs.map (fun ebt => rlocObs ebt.1)).flatten) ∧
        (∀ x, x ∈ r'.mleids ↔
          x ∈ r.mleids ∨ x ∈ (evs.map (fun ebt => mleidObs pfx ebt.1)).flatten) ∧
        (∀ x, x ∈ r'.br_ids ↔ x ∈ r.br_ids ∨ x ∈ evs.map (fun ebt => ebt.2.1)) := by
  intro evs
  induction evs with
  | nil =>
    intro σ r _ hl
    exact ⟨r, hl, rfl, by simp, by simp, by simp⟩
  | cons ebt rest ih =>
    intro σ r hkeys hl
    obtain ⟨e, br, t⟩ := ebt
    have hkey : eventKeyOf e = some k := hkeys _ (List.mem_cons_self _ _)
    have hstep : upsert_node pfx σ e br t = upsertAt pfx σ k e br t :=
      upsert_node_eq_of_key pfx σ e br t k hkey
    have hrun : runUpserts pfx σ ((e, br, t) :: rest) =
        runUpserts pfx (upsertAt pfx σ k e br t) rest := by
      simp only [runUpserts, List.foldl]
      rw [hstep]
    set σ1 := upsertAt pfx σ k e br t with hσ1
    have hl1 : dictLookup σ1.nodes k = some (applyNodeEvent pfx r e br t) := by
      rw [hσ1]
      unfold upsertAt
      simp only [dictLookup_insert]
      rw [hl]
      rfl
    have hc1 : dictCount σ1.nodes k = dictCount σ.nodes k := by
      rw [hσ1]
      unfold upsertAt
      exact dictCount_insert_present _ _ _ _ hl
    obtain ⟨r', hlr', hcr', hrloc, hml, hbr⟩ :=
      ih σ1 (applyNodeEvent pfx r e br t)
        (fun x hx => hkeys x (List.mem_cons_of_mem _ hx)) hl1
    refine ⟨r', by rw [hrun]; exact hlr', by rw [hrun]; rw [hcr']; exact hc1, ?_, ?_, ?_⟩
    · intro x
      rw [hrloc x]
      rw [applyNodeEvent_mem_rloc16s]
      simp only [List.map_cons, List.flatten_cons, List.mem_append]
      tauto
    · intro x
      rw [hml x]
      rw [applyNodeEvent_mem_mleids]
      simp only [List.map_cons, List.flatten_cons, List.mem_append]
      tauto
    · intro x
      rw [hbr x]
      rw [applyNodeEvent_mem_br_ids]
      simp only [List.map_cons, List.mem_cons]
      tauto

theorem upsert_node_child_links (pfx : MeshPfx) (σ : AggState) (e : NodeEvent)
    (br : String) (now : Int) :
    (upsert_node pfx σ e br now).child_links = σ.child_links := by
  unfold upsert_node
  cases e.partition with
  | none => rfl
  | some p =>
    dsimp only
    by_cases hc : p = 0 ∨ pyLower (e.ext_addr.getD "") = ""
    · rw [if_pos hc]
    · rw [if_neg hc]

theorem applyNodeEvent_subset_roles (pfx : MeshPfx) (node : NodeRec) (e : NodeEvent)
    (br : String) (now : Int) :
    node.roles ⊆ (applyNodeEvent pfx node e br now).roles := by
  unfold applyNodeEvent
  cases e.role with
  | none => exact fun x hx => hx
  | some r =>
    by_cases hr : r = ""
    · simp only [hr, if_pos]
      exact fun x hx => hx
    · simp only [if_neg hr]
      exact subset_setInsert _ _

/-- C4: a sequence of `upsert_node` calls that all carry the same
(partition, ext_addr) key, possibly from different BRs, leaves exactly one
node record for that key in the topology snapshot, and that record's
rloc16s, mleids and br_ids sets equal the unions of the values observed
across the events. -/
theorem c4_node_dedup_union (pfx : MeshPfx) (σ : AggState) (k : Nat × String)
    (evs : List (NodeEvent × String × Int)) (t : Int)
    (hne : evs ≠ [])
    (hkeys : ∀ ebt ∈ evs, eventKeyOf ebt.1 = some k)
    (hfresh : dictLookup σ.nodes k = none) :
    ∃ r, ((get_topology (runUpserts pfx σ evs) t).nodes.filter
        (fun n => n.partition_id == k.1 && n.ext_addr == k.2)) = [topoNodeOut (k, r)] ∧
      (∀ x, x ∈ r.rloc16s ↔ x ∈ (evs.map (fun ebt => rlocObs ebt.1)).flatten) ∧
      (∀ x, x ∈ r.mleids ↔ x ∈ (evs.map (fun ebt => mleidObs pfx ebt.1)).flatten) ∧
      (∀ x, x ∈ r.br_ids ↔ x ∈ evs.map (fun ebt => ebt.2.1)) := by
  match evs, hne with
  | (e, br, tt) :: rest, _ =>
    have hkey : eventKeyOf e = some k := hkeys _ (List.mem_cons_self _ _)
    have hstep := upsert_node_eq_of_key pfx σ e br tt k hkey
    have hrun : runUpserts pfx σ ((e, br, tt) :: rest) =
        runUpserts pfx (upsertAt pfx σ k e br tt) rest := by
      simp only [runUpserts, List.foldl]
      rw [hstep]
    set σ1 := upsertAt pfx σ k e br tt with hσ1
    have hl1 : dictLookup σ1.nodes k =
        some (applyNodeEvent pfx (freshNode k.1 k.2) e br tt) := by
      rw [hσ1]
      unfold upsertAt
      simp only [dictLookup_insert]
      rw [hfresh]
      rfl
    have hc1 : dictCount σ1.nodes k = 1 := by
      rw [hσ1]
      unfold upsertAt
      exact dictCount_insert_fresh _ _ _ hfresh
    obtain ⟨r', hlr', hcr', hrloc, hml, hbr⟩ :=
      runUpserts_present pfx k rest σ1 _
        (fun x hx => hkeys x (List.mem_cons_of_mem _ hx)) hl1
    have hcount : dictCount (runUpserts pfx σ1 rest).nodes k = 1 := by
      rw [hcr']
      exact hc1
    have hfilter := filter_eq_singleton_of_count_one _ k r' hcount hlr'
    have hfn : ∀ kv : (Nat × String) × NodeRec,
        ((fun n : TopoNodeOut => n.partition_id == k.1 && n.ext_addr == k.2) ∘ topoNodeOut) kv
          = @BEq.beq (Nat × String) instBEqOfDecidableEq kv.1 k := by
      intro kv
      by_cases h : kv.1 = k
      · simp only [Function.comp, topoNodeOut]
        have hbeq : @BEq.beq (Nat × String) instBEqOfDecidableEq kv.1 k = true :=
          decide_eq_true h
        rw [hbeq, Bool.eq_iff_iff]
        simp [h]
      · have hcomp : ¬(kv.1.1 = k.1 ∧ kv.1.2 = k.2) := by
          intro hboth
          exact h (Prod.ext hboth.1 hboth.2)
        simp only [Function.comp, topoNodeOut]
        have hbeq : @BEq.beq (Nat × String) instBEqOfDecidableEq kv.1 k = false :=
          decide_eq_false h
        rw [hbeq, Bool.eq_iff_iff]
        simp [hcomp]
    have hsing : List.filter
        ((fun n : TopoNodeOut => n.partition_id == k.1 && n.ext_addr == k.2) ∘ topoNodeOut)
        (runUpserts pfx σ1 rest).nodes = [(k, r')] := by
      rw [List.filter_congr (fun kv _ => hfn kv)]
      exact hfilter
    refine ⟨r', ?_, ?_, ?_, ?_⟩
    · rw [hrun]
      unfold get_topology
      dsimp only
      rw [List.filter_map, hsing]
      rfl
    · intro x
      rw [hrloc x, applyNodeEvent_mem_rloc16s]
      simp only [freshNode, List.not_mem_nil, false_or, List.map_cons,
        List.flatten_cons, List.mem_append]
    · intro x
      rw [hml x, applyNodeEvent_mem_mleids]
      simp only [freshNode, List.not_mem_nil, false_or, List.map_cons,
        List.flatten_cons, List.mem_append]
    · intro x
      rw [hbr x, applyNodeEvent_mem_br_ids]
      simp only [freshNode, List.not_mem_nil, false_or, List.map_cons, List.mem_cons]

theorem upsert_router_link_lookup (σ : AggState) (e : RouterLinkEvent) (now : Int)
    (ha : pyLower (e.a_rloc16.getD "") ≠ "") (hb : pyLower (e.b_rloc16.getD "") ≠ "") :
    dictLookup (upsert_router_link σ e now).router_links
      (sortPair (pyLower (e.a_rloc16.getD "")) (pyLower (e.b_rloc16.getD ""))) =
      some (linkRecOf e now) := by
  unfold upsert_router_link
  dsimp only
  rw [if_neg (not_or_intro ha hb)]
  exact dictLookup_insert _ _ _

theorem upsert_child_link_child_links (pfx : MeshPfx) (σ : AggState) (e : ChildLinkEvent)
    (br : String) (now : Int)
    (hp : pyLower (e.parent_rloc16.getD "") ≠ "") (hc : pyLower (e.child_rloc16.getD "") ≠ "") :
    (upsert_child_link pfx σ e br now).child_links =
      dictInsert σ.child_links
        (pyLower (e.parent_rloc16.getD ""), pyLower (e.child_rloc16.getD ""))
        (childRecOf e now) := by
  unfold upsert_child_link
  dsimp only
  rw [if_neg (not_or_intro hp hc)]
  by_cases hcond : e.child_ext_addr.isSome ∧ e.partition.isSome
  · rw [if_pos hcond, upsert_node_child_links]
  · rw [if_neg hcond]

/-- Sample router-link events for claim C3: the second event, for the same
unordered pair, carries no metric fields. -/
def rlSampleA : RouterLinkEvent :=
  ⟨some "0xC400", some "0xc800", some (-50), some (-48), some 3, some 20, some 0, some 0⟩

def rlSampleB : RouterLinkEvent :=
  ⟨some "0xc400", some "0xc800", none, none, none, none, none, none⟩

/-- C3 counterexample: after a first router-link sample stored avg_rssi
-50, a second sample for the same unordered pair with the avg_rssi field
absent leaves the stored avg_rssi as null, erasing the prior observation -
so absent fields do not leave previously stored router-link values
unchanged. -/
theorem c3_field_merge_counterexample :
    (dictLookup (upsert_router_link (AggState.mk [] [] []) rlSampleA 1).router_links
        ("0xc400", "0xc800")).map (fun l => l.avg_rssi) = some (some (-50)) ∧
    (dictLookup (upsert_router_link (upsert_router_link (AggState.mk [] [] []) rlSampleA 1)
        rlSampleB 2).router_links ("0xc400", "0xc800")).map (fun l => l.avg_rssi)
      = some none :=
  ⟨rfl, rfl⟩

/-- C3 amended: for node upserts, fields absent from the event leave the
stored values unchanged and the set-valued fields only grow; router-link
and child-link upserts instead replace the stored metric record wholesale
with the newest sample (absent fields become null), so the newer sample's
metrics replace the older ones atomically. -/
theorem c3_upsert_merge_amended :
    (∀ (pfx : MeshPfx) (σ : AggState) (e : NodeEvent) (br : String) (now : Int)
        (k : Nat × String) (r : NodeRec),
      eventKeyOf e = some k → dictLookup σ.nodes k = some r →
      dictLookup (upsert_node pfx σ e br now).nodes k =
          some (applyNodeEvent pfx r e br now) ∧
        (e.rloc16 = none → (applyNodeEvent pfx r e br now).rloc16s = r.rloc16s) ∧
        r.rloc16s ⊆ (applyNodeEvent pfx r e br now).rloc16s ∧
        (e.role = none → (applyNodeEvent pfx r e br now).roles = r.roles) ∧
        r.roles ⊆ (applyNodeEvent pfx r e br now).roles ∧
        (e.mleids = none → e.ipv6_list = none →
          (applyNodeEvent pfx r e br now).mleids = r.mleids) ∧
        r.mleids ⊆ (applyNodeEvent pfx r e br now).mleids ∧
        (e.is_br = false → (applyNodeEvent pfx r e br now).is_br = r.is_br) ∧
        r.br_ids ⊆ (applyNodeEvent pfx r e br now).br_ids) ∧
    (∀ (σ : AggState) (e1 e2 : RouterLinkEvent) (t1 t2 : Int) (kk : String × String),
      sortPair (pyLower (e2.a_rloc16.getD "")) (pyLower (e2.b_rloc16.getD "")) = kk →
      pyLower (e2.a_rloc16.getD "") ≠ "" → pyLower (e2.b_rloc16.getD "") ≠ "" →
      dictLookup (upsert_router_link (upsert_router_link σ e1 t1) e2 t2).router_links kk =
        some (linkRecOf e2 t2)) ∧
    (∀ (pfx : MeshPfx) (σ : AggState) (e : ChildLinkEvent) (br : String) (now : Int),
      pyLower (e.parent_rloc16.getD "") ≠ "" → pyLower (e.child_rloc16.getD "") ≠ "" →
      dictLookup (upsert_child_link pfx σ e br now).child_links
        (pyLower (e.parent_rloc16.getD ""), pyLower (e.child_rloc16.getD "")) =
        some (childRecOf e now)) := by
  refine ⟨?_, ?_, ?_⟩
  · intro pfx σ e br now k r hkey hr
    refine ⟨?_, ?_, ?_, ?_, ?_, ?_, ?_, ?_, ?_⟩
    · rw [upsert_node_eq_of_key pfx σ e br now k hkey]
      unfold upsertAt
      simp only [dictLookup_insert]
      rw [hr]
      rfl
    · intro h
      simp [applyNodeEvent, h]
    · intro x hx
      rw [applyNodeEvent_mem_rloc16s]
      exact Or.inl hx
    · intro h
      simp [applyNodeEvent, h]
    · exact applyNodeEvent_subset_roles pfx r e br now
    · intro h1 h2
      simp [applyNodeEvent, h1, h2]
    · intro x hx
      rw [applyNodeEvent_mem_mleids]
      exact Or.inl hx
    · intro h
      simp [applyNodeEvent, h]
    · intro x hx
      rw [applyNodeEvent_mem_br_ids]
      exact Or.inl hx
  · intro σ e1 e2 t1 t2 kk h2 ha hb
    rw [← h2]
    exact upsert_router_link_lookup _ e2 t2 ha hb
  · intro pfx σ e br now hp hc
    rw [upsert_child_link_child_links pfx σ e br now hp hc]
    exact dictLookup_insert _ _ _

/-- Witness for the amended C3 theorem at concrete inputs. -/
theorem c3_upsert_merge_witness :
    dictLookup (upsert_node defaultMeshPfx
        (AggState.mk [((1, "ab"), freshNode 1 "ab")] [] [])
        ⟨some 1, some "AB", some "0xC400", none, false, none, none⟩ "BR-1" 5).nodes (1, "ab")
      = some (applyNodeEvent defaultMeshPfx (freshNode 1 "ab")
          ⟨some 1, some "AB", some "0xC400", none, false, none, none⟩ "BR-1" 5) ∧
    dictLookup (upsert_router_link (upsert_router_link (AggState.mk [] [] []) rlSampleA 1)
        rlSampleB 2).router_links ("0xc400", "0xc800") = some (linkRecOf rlSampleB 2) ∧
    dictLookup (upsert_child_link defaultMeshPfx (AggState.mk [] [] [])
        ⟨some "0xC400", some "0xC801", none, some "aabb", some 3, some (-60), none, some 2,
          some "rx-on", some 4⟩ "BR-1" 7).child_links ("0xc400", "0xc801")
      = some (childRecOf
          ⟨some "0xC400", some "0xC801", none, some "aabb", some 3, some (-60), none, some 2,
            some "rx-on", some 4⟩ 7) := by
  refine ⟨?_, ?_, ?_⟩
  · exact (c3_upsert_merge_amended.1 defaultMeshPfx
      (AggState.mk [((1, "ab"), freshNode 1 "ab")] [] [])
      ⟨some 1, some "AB", some "0xC400", none, false, none, none⟩ "BR-1" 5 (1, "ab")
      (freshNode 1 "ab") (by decide) rfl).1
  · exact c3_upsert_merge_amended.2.1 (AggState.mk [] [] []) rlSampleA rlSampleB 1 2
      ("0xc400", "0xc800") (by decide) (by decide) (by decide)
  · exact c3_upsert_merge_amended.2.2 defaultMeshPfx (AggState.mk [] [] [])
      ⟨some "0xC400", some "0xC801", none, some "aabb", some 3, some (-60), none, some 2,
        some "rx-on", some 4⟩ "BR-1" 7 (by decide) (by decide)

/-- C10: a node event whose partition is the integer 0 or whose ext_addr is
the empty string is silently rejected, leaving all aggregator tables
unchanged; consequently a child-link event carrying partition 0 with a
child ext_addr stores the child link but never creates the child node
record. -/
theorem c10_falsy_partition_reject :
    (∀ (pfx : MeshPfx) (σ : AggState) (e : NodeEvent) (br : String) (now : Int),
      e.partition = some 0 ∨ e.ext_addr = some "" → upsert_node pfx σ e br now = σ) ∧
    (∀ (pfx : MeshPfx) (σ : AggState) (e : ChildLinkEvent) (br : String) (now : Int)
        (cea : String),
      pyLower (e.parent_rloc16.getD "") ≠ "" → pyLower (e.child_rloc16.getD "") ≠ "" →
      e.partition = some 0 → e.child_ext_addr = some cea →
      (upsert_child_link pfx σ e br now).nodes = σ.nodes ∧
      dictLookup (upsert_child_link pfx σ e br now).child_links
        (pyLower (e.parent_rloc16.getD ""), pyLower (e.child_rloc16.getD "")) =
        some (childRecOf e now)) := by
  constructor
  · intro pfx σ e br now h
    apply upsert_node_reject
    unfold eventKeyOf
    rcases h with h0 | hea
    · rw [h0]
      dsimp only
      have hcond : (0 : Nat) = 0 ∨ pyLower (e.ext_addr.getD "") = "" := Or.inl rfl
      rw [if_pos hcond]
    · cases hp : e.partition with
      | none => rfl
      | some p =>
        rw [hea]
        dsimp only [Option.getD]
        have hcond : p = 0 ∨ pyLower "" = "" := Or.inr rfl
        rw [if_pos hcond]
  · intro pfx σ e br now cea hp hc h0 hcea
    constructor
    · unfold upsert_child_link
      dsimp only
      rw [if_neg (not_or_intro hp hc)]
      have hcond : e.child_ext_addr.isSome ∧ e.partition.isSome := by
        rw [hcea, h0]
        exact ⟨rfl, rfl⟩
      rw [if_pos hcond]
      have hreject : eventKeyOf
          (⟨e.partition, e.child_ext_addr, some (pyLower (e.child_rloc16.getD "")),
            some "child", false, some (e.child_mleids.getD []), none⟩ : NodeEvent) = none := by
        unfold eventKeyOf
        rw [h0]
        dsimp only
        rw [if_pos (Or.inl rfl)]
      rw [upsert_node_reject _ _ _ _ _ hreject]
    · rw [upsert_child_link_child_links pfx σ e br now hp hc]
      exact dictLookup_insert _ _ _

/-- Witness for C10 at concrete inputs: a partition-0 node event leaves the
state unchanged, and a partition-0 child-link event stores the link while
leaving the node table empty. -/
theorem c10_falsy_partition_witness :
    upsert_node defaultMeshPfx (AggState.mk [] [] [])
      ⟨some 0, some "aabbccddeeff0011", some "0xc400", none, false, none, none⟩ "BR-1" 3
      = AggState.mk [] [] [] ∧
    (upsert_child_link defaultMeshPfx (AggState.mk [] [] [])
        ⟨some "0xC400", some "0xC801", none, some "aabbccddeeff0011", some 0, some (-60),
          none, some 2, some "rx-on", some 4⟩ "BR-1" 4).nodes = ([] : Dict (Nat × String) NodeRec) ∧
    dictLookup (upsert_child_link defaultMeshPfx (AggState.mk [] [] [])
        ⟨some "0xC400", some "0xC801", none, some "aabbccddeeff0011", some 0, some (-60),
          none, some 2, some "rx-on", some 4⟩ "BR-1" 4).child_links ("0xc400", "0xc801")
      = some (childRecOf
          ⟨some "0xC400", some "0xC801", none, some "aabbccddeeff0011", some 0, some (-60),
            none, some 2, some "rx-on", some 4⟩ 4) := by
  refine ⟨?_, ?_, ?_⟩
  · exact c10_falsy_partition_reject.1 defaultMeshPfx (AggState.mk [] [] [])
      ⟨some 0, some "aabbccddeeff0011", some "0xc400", none, false, none, none⟩ "BR-1" 3
      (Or.inl rfl)
  · exact (c10_falsy_partition_reject.2 defaultMeshPfx (AggState.mk [] [] [])
      ⟨some "0xC400", some "0xC801", none, some "aabbccddeeff0011", some 0, some (-60),
        none, some 2, some "rx-on", some 4⟩ "BR-1" 4 "aabbccddeeff0011"
      (by decide) (by decide) rfl rfl).1
  · exact (c10_falsy_partition_reject.2 defaultMeshPfx (AggState.mk [] [] [])
      ⟨some "0xC400", some "0xC801", none, some "aabbccddeeff0011", some 0, some (-60),
        none, some 2, some "rx-on", some 4⟩ "BR-1" 4 "aabbccddeeff0011"
      (by decide) (by decide) rfl rfl).2

/-- Two diagnostic node events for the same physical node reported by two
different BRs with different rloc16s (scenario S6 of the spec). -/
def evS6 : List (NodeEvent × String × Int) :=
  [(⟨some 0x1a2b, some "0123456789abcdef", some "0xC400", some "router", false,
      some ["fd12:3456::1"], none⟩, "BR-001", 10),
   (⟨some 0x1a2b, some "0123456789ABCDEF", some "0xc800", some "router", false,
      some ["fd12:3456::1"], none⟩, "BR-002", 11)]

/-- Witness for C4 on scenario S6: two BRs report the same
(partition, ext_addr) with different rloc16s. -/
theorem c4_node_dedup_witness :
    ∃ r, ((get_topology (runUpserts defaultMeshPfx (AggState.mk [] [] []) evS6) 12).nodes.filter
        (fun n => n.partition_id == 0x1a2b && n.ext_addr == "0123456789abcdef")) =
          [topoNodeOut ((0x1a2b, "0123456789abcdef"), r)] ∧
      (∀ x, x ∈ r.rloc16s ↔ x ∈ (evS6.map (fun ebt => rlocObs ebt.1)).flatten) ∧
      (∀ x, x ∈ r.mleids ↔ x ∈ (evS6.map (fun ebt => mleidObs defaultMeshPfx ebt.1)).flatten) ∧
      (∀ x, x ∈ r.br_ids ↔ x ∈ evS6.map (fun ebt => ebt.2.1)) :=
  c4_node_dedup_union defaultMeshPfx (AggState.mk [] [] []) (0x1a2b, "0123456789abcdef")
    evS6 12 (by decide) (by decide) rfl

end NetworkTopologyAggregator

namespace BorderRouterManager

inductive BrStatus where
  | online
  | offline
  deriving DecidableEq, Repr

/-- One record of `self.border_routers`. `net_pfx` models the Python field
`network_prefix` (the name is shortened for Lean); timestamps are the
integer seconds of `datetime.now()`. -/
structure BrInfo where
  sid : String
  net_pfx : String
  nodes : List String
  status : BrStatus
  connected_at : Int
  last_heartbeat : Int
  heartbeat_count : Nat
  nodes_count : Nat
  commands_sent : Nat
  events_received : Nat
  disconnected_at : Option Int
  deriving DecidableEq, Repr

structure ManagerState where
  border_routers : Dict String BrInfo
  sid_to_br : Dict String String
  node_to_br : Dict String String
  heartbeat_timeout : Int
  deriving DecidableEq, Repr

/-- `register_br`: on reconnection the superseded socket-id binding is
deleted first, then a fresh record marked online replaces the old one, the
socket-id index gains the new handle and the node-to-BR index is updated.
`nodes=None` is modelled by `[]` (`nodes or []` makes them equal). The
Python always returns True. -/
def register_br (σ : ManagerState) (br_id sid net_pfx : String)
    (nodes : List String) (now : Int) : ManagerState :=
  let σ1 :=
    match dictLookup σ.border_routers br_id with
    | some info => { σ with sid_to_br := dictErase σ.sid_to_br info.sid }
    | none => σ
  let info : BrInfo :=
    ⟨sid, net_pfx, nodes, .online, now, now, 0, nodes.length, 0, 0, none⟩
  { σ1 with
    border_routers := dictInsert σ1.border_routers br_id info,
    sid_to_br := dictInsert σ1.sid_to_br sid br_id,
    node_to_br := nodes.foldl (fun m n => dictInsert m n br_id) σ1.node_to_br }

/-- `unregister_br`: marks the record offline (kept for statistics), clears
the socket-id binding and the node index entries that still point at this
BR. -/
def unregister_br (σ : ManagerState) (br_id : String) (now : Int) :
    Bool × ManagerState :=
  match dictLookup σ.border_routers br_id with
  | none => (false, σ)
  | some info =>
    let sid_to_br := dictErase σ.sid_to_br info.sid
    let node_to_br := info.nodes.foldl
      (fun m n => if dictLookup m n = some br_id then dictErase m n else m)
      σ.node_to_br
    (true,
      { σ with
        sid_to_br := sid_to_br,
        node_to_br := node_to_br,
        border_routers := dictInsert σ.border_routers br_id
          { info with status := .offline, disconnected_at := some now } })

/-- `update_heartbeat`: refresh the timestamp, bump the counter, optionally
update the nodes count, and flip an offline record back online. -/
def update_heartbeat (σ : ManagerState) (br_id : String) (nodes_count : Option Nat)
    (now : Int) : Bool × ManagerState :=
  match dictLookup σ.border_routers br_id with
  | none => (false, σ)
  | some info =>
    let info := { info with
      last_heartbeat := now, heartbeat_count := info.heartbeat_count + 1 }
    let info := match nodes_count with
      | some c => { info with nodes_count := c }
      | none => info
    let info := if info.status = BrStatus.offline then { info with status := BrStatus.online } else info
    (true, { σ with border_routers := dictInsert σ.border_routers br_id info })

/-- `is_br_online`: the record must exist, its status must be online and
the time since the last heartbeat must be strictly below the timeout. -/
def is_br_online (σ : ManagerState) (br_id : String) (now : Int) : Bool :=
  match dictLookup σ.border_routers br_id with
  | none => false
  | some info =>
    if info.status ≠ .online then false
    else decide (now - info.last_heartbeat < σ.heartbeat_timeout)

/-- `get_br_sid`: the socket handle of a BR whose stored status is online. -/
def get_br_sid (σ : ManagerState) (br_id : String) : Option String :=
  match dictLookup σ.border_routers br_id with
  | some info => if info.status = .online then some info.sid else none
  | none => none

/-- `get_br_for_node`: the node index entry, returned only when it is
truthy and that BR is online. -/
def get_br_for_node (σ : ManagerState) (node_name : String) (now : Int) :
    Option String :=
  match dictLookup σ.node_to_br node_name with
  | some br_id => if br_id ≠ "" ∧ is_br_online σ br_id now then some br_id else none
  | none => none

/-- The per-record body of the `_monitor_heartbeats` loop. -/
def sweepInfo (timeout now : Int) (info : BrInfo) : BrInfo :=
  if info.status = .online ∧ now - info.last_heartbeat > timeout
  then { info with status := .offline, disconnected_at := some now }
  else info

/-- One pass of the background liveness sweeper (the daemon thread wakes
every 5 seconds and runs this over all records under the lock). -/
def monitor_sweep (σ : ManagerState) (now : Int) : ManagerState :=
  { σ with border_routers :=
      σ.border_routers.map (fun kv => (kv.1, sweepInfo σ.heartbeat_timeout now kv.2)) }

theorem dictLookup_map_value [DecidableEq α] (l : Dict α β) (f : β → γ) (k : α) :
    dictLookup (l.map (fun kv => (kv.1, f kv.2))) k = (dictLookup l k).map f := by
  induction l with
  | nil => rfl
  | cons kv rest ih =>
    obtain ⟨k1, v1⟩ := kv
    by_cases h : k1 = k
    · simp [dictLookup, h]
    · simp [dictLookup, h, ih]

theorem register_br_lookup_self (σ : ManagerState) (br_id sid net_pfx : String)
    (nodes : List String) (now : Int) :
    dictLookup (register_br σ br_id sid net_pfx nodes now).border_routers br_id =
      some ⟨sid, net_pfx, nodes, .online, now, now, 0, nodes.length, 0, 0, none⟩ := by
  unfold register_br
  cases h : dictLookup σ.border_routers br_id <;>
    · dsimp only
      exact dictLookup_insert _ _ _

theorem register_br_sid_to_br (σ : ManagerState) (br_id sid net_pfx : String)
    (nodes : List String) (now : Int) (info : BrInfo)
    (h : dictLookup σ.border_routers br_id = some info) :
    (register_br σ br_id sid net_pfx nodes now).sid_to_br =
      dictInsert (dictErase σ.sid_to_br info.sid) sid br_id := by
  unfold register_br
  rw [h]

/-- C8: after two successive registrations of the same BR id with handles
s1 then s2 (s1 superseded, so distinct from s2), at most one online session
exists for that id: the socket-id index no longer resolves s1, the
session-handle lookup returns s2, and any node lookup that resolves to this
BR reaches handle s2, never s1. -/
theorem c8_register_supersedes (σ : ManagerState) (B s1 s2 p1 p2 : String)
    (n1 n2 : List String) (t1 t2 now : Int) (hne : s1 ≠ s2) :
    dictLookup (register_br (register_br σ B s1 p1 n1 t1) B s2 p2 n2 t2).sid_to_br s1 =
      none ∧
    get_br_sid (register_br (register_br σ B s1 p1 n1 t1) B s2 p2 n2 t2) B = some s2 ∧
    (∀ node,
      get_br_for_node (register_br (register_br σ B s1 p1 n1 t1) B s2 p2 n2 t2) node now =
        some B →
      get_br_sid (register_br (register_br σ B s1 p1 n1 t1) B s2 p2 n2 t2) B ≠ some s1) := by
  have h1 := register_br_lookup_self σ B s1 p1 n1 t1
  have hsid := register_br_sid_to_br (register_br σ B s1 p1 n1 t1) B s2 p2 n2 t2 _ h1
  have h2 : get_br_sid (register_br (register_br σ B s1 p1 n1 t1) B s2 p2 n2 t2) B =
      some s2 := by
    unfold get_br_sid
    rw [register_br_lookup_self]
    rfl
  refine ⟨?_, h2, ?_⟩
  · rw [hsid]
    exact dictLookup_none_of_erase_insert_ne _ _ _ _ hne
  · intro node _
    rw [h2]
    intro hcontra
    exact hne (Option.some.inj hcontra).symm

/-- Witness for C8 at a concrete state: BR-001 registers with sid-1 and
then reconnects with sid-2. -/
theorem c8_register_supersedes_witness :
    dictLookup (register_br (register_br (ManagerState.mk [] [] [] 30)
        "BR-001" "sid-1" "fd78::/64" ["n01"] 1) "BR-001" "sid-2" "fd78::/64" ["n01"] 2).sid_to_br
      "sid-1" = none ∧
    get_br_sid (register_br (register_br (ManagerState.mk [] [] [] 30)
        "BR-001" "sid-1" "fd78::/64" ["n01"] 1) "BR-001" "sid-2" "fd78::/64" ["n01"] 2)
      "BR-001" = some "sid-2" := by
  have h := c8_register_supersedes (ManagerState.mk [] [] [] 30) "BR-001" "sid-1" "sid-2"
    "fd78::/64" "fd78::/64" ["n01"] ["n01"] 1 2 5 (by decide)
  exact ⟨h.1, h.2.1⟩

/-- C9: `is_br_online` is true exactly when a record exists, its status is
online and the elapsed time since its last heartbeat is strictly below the
heartbeat timeout; and one pass of the background sweeper flips every
online session whose heartbeat is strictly older than the timeout to
offline, recording `disconnected_at` as the sweep time. -/
theorem c9_online_iff_and_sweep :
    (∀ (σ : ManagerState) (br_id : String) (now : Int),
      is_br_online σ br_id now = true ↔
        ∃ info, dictLookup σ.border_routers br_id = some info ∧
          info.status = .online ∧ now - info.last_heartbeat < σ.heartbeat_timeout) ∧
    (∀ (σ : ManagerState) (br_id : String) (now : Int) (info : BrInfo),
      dictLookup σ.border_routers br_id = some info →
      info.status = .online → now - info.last_heartbeat > σ.heartbeat_timeout →
      dictLookup (monitor_sweep σ now).border_routers br_id =
        some { info with status := .offline, disconnected_at := some now }) := by
  constructor
  · intro σ br_id now
    unfold is_br_online
    cases h : dictLookup σ.border_routers br_id with
    | none =>
      simp only [Bool.false_eq_true, false_iff]
      rintro ⟨info, hinfo, -⟩
      exact Option.noConfusion hinfo
    | some info =>
      dsimp only
      by_cases hst : info.status = BrStatus.online
      · rw [if_neg (not_not_intro hst)]
        simp only [decide_eq_true_eq]
        constructor
        · intro hlt
          exact ⟨info, rfl, hst, hlt⟩
        · rintro ⟨info', hinfo', -, hlt'⟩
          cases Option.some.inj hinfo'
          exact hlt'
      · rw [if_pos hst]
        simp only [Bool.false_eq_true, false_iff]
        rintro ⟨info', hinfo', hst', -⟩
        cases Option.some.inj hinfo'
        exact hst hst'
  · intro σ br_id now info h hst hexp
    unfold monitor_sweep
    dsimp only
    rw [dictLookup_map_value, h]
    dsimp only [Option.map]
    unfold sweepInfo
    rw [if_pos ⟨hst, hexp⟩]

/-- Witness for C9 at a concrete state: with a 30-second timeout and a last
heartbeat at 0, the BR is online at 10 and a sweep at 40 flips it offline
with `disconnected_at = 40`. -/
theorem c9_online_iff_and_sweep_witness :
    is_br_online
      (ManagerState.mk
        [("BR-001", ⟨"sid-1", "fd78::/64", ["n01"], .online, 0, 0, 0, 1, 0, 0, none⟩)]
        [("sid-1", "BR-001")] [("n01", "BR-001")] 30) "BR-001" 10 = true ∧
    dictLookup (monitor_sweep
      (ManagerState.mk
        [("BR-001", ⟨"sid-1", "fd78::/64", ["n01"], .online, 0, 0, 0, 1, 0, 0, none⟩)]
        [("sid-1", "BR-001")] [("n01", "BR-001")] 30) 40).border_routers "BR-001" =
      some ⟨"sid-1", "fd78::/64", ["n01"], .offline, 0, 0, 0, 1, 0, 0, some 40⟩ := by
  constructor
  · exact (c9_online_iff_and_sweep.1 _ "BR-001" 10).mpr
      ⟨⟨"sid-1", "fd78::/64", ["n01"], .online, 0, 0, 0, 1, 0, 0, none⟩, rfl, rfl, by decide⟩
  · exact c9_online_iff_and_sweep.2 _ "BR-001" 40
      ⟨"sid-1", "fd78::/64", ["n01"], .online, 0, 0, 0, 1, 0, 0, none⟩ rfl rfl (by decide)

end BorderRouterManager
namespace NativeWebSocketHandler

/-- One entry of `config/adresses.json` under `nodes` (only the `address`
field is read by the modelled paths; a present entry is a non-empty dict,
so the `if node_data:` truthiness check passes). -/
structure CfgNode where
  address : Option String
  deriving DecidableEq, Repr

abbrev Config := Dict String CfgNode

/-- One entry of the dynamic `self.ipv6_mapping`. -/
structure MappingRec where
  node_name : String
  br_id : String
  last_seen : Int
  deriving DecidableEq, Repr

/-- `extract_rloc16_from_rloc_ipv6`: parse, test the RLOC IID pattern, and
format the low 16 bits as `0x%04x`; parse failures return None via the
except branch. -/
def extract_rloc16_from_rloc_ipv6 (ipv6 : String) : Option String :=
  match parseIPv6? ipv6 with
  | none => none
  | some v => if isRlocIid v then some ("0x" ++ hex4 (iidOf v &&& 0xFFFF)) else none

/-- The config scan `for node_name, node_data in config['nodes'].items()`
comparing lowercased addresses, first match wins. -/
def cfgMatchAddr (cfg : Config) (addr : String) : Option String :=
  match cfg with
  | [] => none
  | (name, d) :: rest =>
    if pyLower (d.address.getD "") = pyLower addr then some name
    else cfgMatchAddr rest addr

/-- The inner loop of resolution try 1: resolve any of the node's ML-EIDs
through the config, first match wins. -/
def mleidScanCfg (cfg : Config) : List String → Option String
  | [] => none
  | m :: rest =>
    match cfgMatchAddr cfg m with
    | some n => some n
    | none => mleidScanCfg cfg rest

/-- Resolution try 1: find a topology node owning the input as ML-EID, then
map any of its ML-EIDs to a business name; on no match the outer loop
continues. -/
def topoMleidScan (cfg : Config) (ipv6Lower : String) :
    List NetworkTopologyAggregator.TopoNodeOut → Option String
  | [] => none
  | n :: rest =>
    if ipv6Lower ∈ n.mleids.map pyLower then
      match mleidScanCfg cfg n.mleids with
      | some name => some name
      | none => topoMleidScan cfg ipv6Lower rest
    else topoMleidScan cfg ipv6Lower rest

/-- Resolution try 2: find a topology node carrying the extracted RLOC16;
resolve its first ML-EID through the config, and fall back to the RLOC16
string itself as the name when that fails or the node has no ML-EID. -/
def topoRlocScan (cfg : Config) (r : String) :
    List NetworkTopologyAggregator.TopoNodeOut → Option String
  | [] => none
  | n :: rest =>
    if pyLower r ∈ n.rloc16s.map pyLower then
      match n.mleids with
      | m0 :: _ =>
        match cfgMatchAddr cfg m0 with
        | some name => some name
        | none => some r
      | [] => some r
    else topoRlocScan cfg r rest

/-- `resolve_ipv6_to_node_name`, with the on-disk config and the topology
snapshot node list passed as values. -/
def resolve_ipv6_to_node_name (cfg : Config)
    (topoNodes : List NetworkTopologyAggregator.TopoNodeOut) (ipv6 : String) :
    Option String :=
  match cfgMatchAddr cfg ipv6 with
  | some n => some n
  | none =>
    match topoMleidScan cfg (pyLower ipv6) topoNodes with
    | some n => some n
    | none =>
      match extract_rloc16_from_rloc_ipv6 ipv6 with
      | some r => topoRlocScan cfg r topoNodes
      | none => none

theorem cfgMatchAddr_mem (cfg : Config) (addr : String) (n : String)
    (h : cfgMatchAddr cfg addr = some n) : ∃ d, (n, d) ∈ cfg := by
  induction cfg with
  | nil => exact Option.noConfusion h
  | cons kv rest ih =>
    obtain ⟨name, d⟩ := kv
    by_cases hm : pyLower (d.address.getD "") = pyLower addr
    · rw [cfgMatchAddr, if_pos hm] at h
      exact ⟨d, by rw [← Option.some.inj h]; exact List.mem_cons_self _ _⟩
    · rw [cfgMatchAddr, if_neg hm] at h
      obtain ⟨d', hd'⟩ := ih h
      exact ⟨d', List.mem_cons_of_mem _ hd'⟩

theorem mleidScanCfg_mem (cfg : Config) (ms : List String) (n : String)
    (h : mleidScanCfg cfg ms = some n) : ∃ d, (n, d) ∈ cfg := by
  induction ms with
  | nil => exact Option.noConfusion h
  | cons m rest ih =>
    rw [mleidScanCfg] at h
    cases hm : cfgMatchAddr cfg m with
    | some n' =>
      rw [hm] at h
      exact Option.some.inj h ▸ cfgMatchAddr_mem cfg m n' hm
    | none =>
      rw [hm] at h
      exact ih h

theorem topoMleidScan_mem (cfg : Config) (ip : String)
    (ns : List NetworkTopologyAggregator.TopoNodeOut) (n : String)
    (h : topoMleidScan cfg ip ns = some n) : ∃ d, (n, d) ∈ cfg := by
  induction ns with
  | nil => exact Option.noConfusion h
  | cons node rest ih =>
    rw [topoMleidScan] at h
    by_cases hmem : ip ∈ node.mleids.map pyLower
    · rw [if_pos hmem] at h
      cases hm : mleidScanCfg cfg node.mleids with
      | some n' =>
        rw [hm] at h
        exact Option.some.inj h ▸ mleidScanCfg_mem cfg node.mleids n' hm
      | none =>
        rw [hm] at h
        exact ih h
    · rw [if_neg hmem] at h
      exact ih h

theorem topoRlocScan_mem_or_rloc (cfg : Config) (r : String)
    (ns : List NetworkTopologyAggregator.TopoNodeOut) (n : String)
    (h : topoRlocScan cfg r ns = some n) : (∃ d, (n, d) ∈ cfg) ∨ n = r := by
  induction ns with
  | nil => exact Option.noConfusion h
  | cons node rest ih =>
    rw [topoRlocScan] at h
    by_cases hmem : pyLower r ∈ node.rloc16s.map pyLower
    · rw [if_pos hmem] at h
      cases hml : node.mleids with
      | nil =>
        rw [hml] at h
        dsimp only at h
        exact Or.inr (Option.some.inj h).symm
      | cons m0 mrest =>
        rw [hml] at h
        dsimp only at h
        cases hm : cfgMatchAddr cfg m0 with
        | some n' =>
          rw [hm] at h
          dsimp only at h
          exact Or.inl (Option.some.inj h ▸ cfgMatchAddr_mem cfg m0 n' hm)
        | none =>
          rw [hm] at h
          dsimp only at h
          exact Or.inr (Option.some.inj h).symm
    · rw [if_neg hmem] at h
      exact ih h

/-- C5 counterexample: with an empty config (so no business name exists at
all) and a topology node carrying rloc16 0xc400 with no ML-EID, resolving
the RLOC address returns the string "0xc400" - neither a business name nor
none, contradicting the claim that no other value is ever returned. -/
theorem c5_resolve_counterexample :
    resolve_ipv6_to_node_name []
      [⟨0, "", ["0xc400"], [], [], [], false, 0⟩]
      "fdc7:4097:c896:f63b:0:ff:fe00:c400" = some "0xc400" := rfl

/-- C5 amended: name resolution either returns a business name present in
the config (reached directly or through the aggregator topology), or the
RLOC16 string extracted from a RLOC input as a fallback name when a
topology node carries that rloc16 but no config match exists, or none;
no other value is returned. -/
theorem c5_resolve_range_amended (cfg : Config)
    (topoNodes : List NetworkTopologyAggregator.TopoNodeOut) (ipv6 : String) :
    resolve_ipv6_to_node_name cfg topoNodes ipv6 = none ∨
    (∃ n d, resolve_ipv6_to_node_name cfg topoNodes ipv6 = some n ∧ (n, d) ∈ cfg) ∨
    (∃ r, resolve_ipv6_to_node_name cfg topoNodes ipv6 = some r ∧
      extract_rloc16_from_rloc_ipv6 ipv6 = some r) := by
  unfold resolve_ipv6_to_node_name
  cases h1 : cfgMatchAddr cfg ipv6 with
  | some n =>
    obtain ⟨d, hd⟩ := cfgMatchAddr_mem cfg ipv6 n h1
    exact Or.inr (Or.inl ⟨n, d, rfl, hd⟩)
  | none =>
    dsimp only
    cases h2 : topoMleidScan cfg (pyLower ipv6) topoNodes with
    | some n =>
      obtain ⟨d, hd⟩ := topoMleidScan_mem cfg _ _ n h2
      exact Or.inr (Or.inl ⟨n, d, rfl, hd⟩)
    | none =>
      dsimp only
      cases h3 : extract_rloc16_from_rloc_ipv6 ipv6 with
      | none => exact Or.inl rfl
      | some r =>
        dsimp only
        cases h4 : topoRlocScan cfg r topoNodes with
        | none => exact Or.inl rfl
        | some n =>
          rcases topoRlocScan_mem_or_rloc cfg r topoNodes n h4 with ⟨d, hd⟩ | heq
          · exact Or.inr (Or.inl ⟨n, d, rfl, hd⟩)
          · exact Or.inr (Or.inr ⟨r, congrArg some heq, rfl⟩)

/-- `resolve_node_name_to_ipv6`: the `address` field of the config entry,
None when the node is unknown (a present entry is a non-empty dict, so the
`if node_data:` truthiness check passes). -/
def resolve_node_name_to_ipv6 (cfg : Config) (node_name : String) : Option String :=
  match dictLookup cfg node_name with
  | some d => d.address
  | none => none

/-- Mutable state of the handler object. `active_connections` holds the BR
ids that own a WebSocket handle (the handle values themselves are not
modelled); `message_queues` holds the queued outbound frames. -/
structure HandlerState where
  active_connections : List String
  message_queues : Dict String (List String)
  tx_threads : List String
  ipv6_mapping : Dict String MappingRec
  manager : BorderRouterManager.ManagerState
  deriving Repr

/-- The handler's own `get_br_for_node`: first mapping entry whose
node_name matches wins; otherwise resolve the name and look the address up
in the mapping. No online check is performed here. -/
def get_br_for_node (σ : HandlerState) (cfg : Config) (node_name : String) :
    Option String :=
  match σ.ipv6_mapping.find? (fun kv => kv.2.node_name == node_name) with
  | some kv => some kv.2.br_id
  | none =>
    match resolve_node_name_to_ipv6 cfg node_name with
    | some ipv6 =>
      if ipv6 ≠ "" then
        match dictLookup σ.ipv6_mapping ipv6 with
        | some m => some m.br_id
        | none => none
      else none
    | none => none

/-- The command frame built by `send_command_to_node` (the `json.dumps`
serialization is kept structured). -/
structure CommandMsg where
  command : String
  target_ipv6 : String
  command_type : String
  payload : String
  request_id : String
  deriving DecidableEq, Repr

structure SendOutcome where
  success : Bool
  st : HandlerState
  socket_sends : List CommandMsg
  deriving Repr

/-- `send_command_to_node`: resolve the name, find the owning BR via the
dynamic mapping, require the BR to be in `active_connections`, then write
the frame DIRECTLY to that BR WebSocket with `ws.send` inside try/except -
the outbound message queues are neither consulted nor modified. `sendOk`
models whether the synchronous socket write raises; `rid` is the generated
uuid4 string. `socket_sends` lists the frames handed to `ws.send`. -/
def send_command_to_node (cfg : Config) (σ : HandlerState)
    (node_name command_type payload rid : String) (sendOk : Bool) : SendOutcome :=
  match resolve_node_name_to_ipv6 cfg node_name with
  | none => ⟨false, σ, []⟩
  | some ipv6 =>
    if ipv6 = "" then ⟨false, σ, []⟩
    else
      match get_br_for_node σ cfg node_name with
      | none => ⟨false, σ, []⟩
      | some br_id =>
        if br_id = "" then ⟨false, σ, []⟩
        else if br_id ∈ σ.active_connections then
          ⟨sendOk, σ, [⟨"send_coap", ipv6, command_type, payload, rid⟩]⟩
        else ⟨false, σ, []⟩

/-- C1 counterexample config and state: n01 resolves, its mapping points at
BR-001, BR-001 is connected with an empty outbound queue. -/
def cfgC1 : Config := [("n01", ⟨some "fd78:8e78:3bfe:1::abcd"⟩)]

def stC1 : HandlerState :=
  ⟨["BR-001"], [("BR-001", [])], ["BR-001"],
   [("fd78:8e78:3bfe:1::abcd", ⟨"n01", "BR-001", 0⟩)],
   BorderRouterManager.ManagerState.mk [] [] [] 30⟩

/-- C1 counterexample: with name resolution, BR mapping and connection all
succeeding, the boolean result still differs between a failing and a
succeeding socket write (so it does not depend only on an enqueue), the
outbound message queue stays empty (nothing is enqueued), and the frame
goes directly to the socket. -/
theorem c1_send_counterexample :
    (send_command_to_node cfgC1 stC1 "n01" "audio" "play:341" "rid-1" false).success
      = false ∧
    (send_command_to_node cfgC1 stC1 "n01" "audio" "play:341" "rid-1" true).success
      = true ∧
    dictLookup (send_command_to_node cfgC1 stC1 "n01" "audio" "play:341" "rid-1"
      false).st.message_queues "BR-001" = some [] ∧
    (send_command_to_node cfgC1 stC1 "n01" "audio" "play:341" "rid-1" false).socket_sends
      = [⟨"send_coap", "fd78:8e78:3bfe:1::abcd", "audio", "play:341", "rid-1"⟩] :=
  ⟨rfl, rfl, rfl, rfl⟩

/-- C1 amended: when the name resolves to an IPv6, the dynamic mapping
yields an owning BR and that BR is among the active connections, the
command frame {command: send_coap, target_ipv6, command_type, payload,
request_id} is written directly to that BR WebSocket - the outbound
message queue is not used - and the boolean result is exactly the success
of the synchronous socket write. -/
theorem c1_send_direct_amended (cfg : Config) (σ : HandlerState)
    (node_name command_type payload rid ipv6 br_id : String) (sendOk : Bool)
    (hres : resolve_node_name_to_ipv6 cfg node_name = some ipv6) (hip : ipv6 ≠ "")
    (hbr : get_br_for_node σ cfg node_name = some br_id) (hbrne : br_id ≠ "")
    (hconn : br_id ∈ σ.active_connections) :
    send_command_to_node cfg σ node_name command_type payload rid sendOk =
      ⟨sendOk, σ, [⟨"send_coap", ipv6, command_type, payload, rid⟩]⟩ := by
  unfold send_command_to_node
  rw [hres]
  dsimp only
  rw [if_neg hip, hbr]
  dsimp only
  rw [if_neg hbrne, if_pos hconn]

/-- Witness for the amended C1 theorem at the concrete config and state of
the counterexample. -/
theorem c1_send_direct_witness :
    send_command_to_node cfgC1 stC1 "n01" "audio" "play:341" "rid-1" true =
      ⟨true, stC1, [⟨"send_coap", "fd78:8e78:3bfe:1::abcd", "audio", "play:341", "rid-1"⟩]⟩ :=
  c1_send_direct_amended cfgC1 stC1 "n01" "audio" "play:341" "rid-1"
    "fd78:8e78:3bfe:1::abcd" "BR-001" true rfl (by decide) rfl (by decide) (by decide)

/-- The heartbeat payload fields `handle_heartbeat` reads. `net_pfx` models
the Python key `network_prefix`. -/
structure HbData where
  nodes_count : Option Nat
  net_pfx : Option String
  deriving DecidableEq, Repr

/-- Outcome of `handle_heartbeat`: either an uncaught exception escapes (it
is caught by `handle_message`, which drops the frame), or the handler runs
to completion having sent a heartbeat_ack. -/
inductive HbOutcome where
  | exn (st : HandlerState)
  | ok (st : HandlerState) (ackSent : Bool)

/-- The gateway-mapping refresh loop at the end of `handle_heartbeat`: the
first mapping entry named "gateway" owned by this BR gets its last_seen
refreshed (`break` after the first hit). -/
def refresh_gateway : Dict String MappingRec → String → Int → Dict String MappingRec
  | [], _, _ => []
  | (ip, m) :: rest, br, now =>
    if m.node_name = "gateway" ∧ m.br_id = br then
      (ip, { m with last_seen := now }) :: rest
    else (ip, m) :: refresh_gateway rest br now

/-- `handle_heartbeat`. When the BR already has a session record the
handler updates the heartbeat in the manager, sends `heartbeat_ack` and
refreshes the gateway mapping. When the BR has no session record (first
contact) the code first adds the connection, creates the queue and starts
a TX thread, and then calls
`self.border_router_manager.is_br_registered(br_id)` - a method that
`BorderRouterManager` does not define - so an AttributeError is raised at
that point: registration, the heartbeat update and the heartbeat_ack reply
are never reached. -/
def handle_heartbeat (σ : HandlerState) (br_id : String) (d : HbData) (now : Int) :
    HbOutcome :=
  if br_id ∈ σ.active_connections then
    let mgr := (BorderRouterManager.update_heartbeat σ.manager br_id
      (some (d.nodes_count.getD 0)) now).2
    let σ2 := { σ with manager := mgr, ipv6_mapping := refresh_gateway σ.ipv6_mapping br_id now }
    .ok σ2 true
  else
    let queues := if (dictLookup σ.message_queues br_id).isSome then σ.message_queues
      else dictInsert σ.message_queues br_id []
    let txs := if (dictLookup σ.message_queues br_id).isSome then σ.tx_threads
      else setInsert σ.tx_threads br_id
    let σ1 := { σ with active_connections := setInsert σ.active_connections br_id, message_queues := queues, tx_threads := txs }
    .exn σ1

/-- C2: a heartbeat from a BR with no session record reaches the undefined
`is_br_registered` attribute and raises; the registry is left untouched
(no auto-registration, no heartbeat update) and no heartbeat_ack is sent
(only the `ok` outcome carries an ack). -/
theorem c2_first_contact_heartbeat_crashes (σ : HandlerState) (br_id : String)
    (d : HbData) (now : Int) (h : br_id ∉ σ.active_connections) :
    ∃ σ1, handle_heartbeat σ br_id d now = .exn σ1 ∧ σ1.manager = σ.manager := by
  unfold handle_heartbeat
  rw [if_neg h]
  exact ⟨_, rfl, rfl⟩

/-- Witness for C2 at a concrete first-contact state. -/
theorem c2_first_contact_heartbeat_witness :
    ∃ σ1, handle_heartbeat
        (HandlerState.mk [] [] [] [] (BorderRouterManager.ManagerState.mk [] [] [] 30))
        "BR-001" ⟨some 3, none⟩ 7 = .exn σ1 ∧
      σ1.manager = BorderRouterManager.ManagerState.mk [] [] [] 30 :=
  c2_first_contact_heartbeat_crashes
    (HandlerState.mk [] [] [] [] (BorderRouterManager.ManagerState.mk [] [] [] 30))
    "BR-001" ⟨some 3, none⟩ 7 (by decide)

end NativeWebSocketHandler
end CoapServer
